import Mathlib

/-! # rt-gl: camera, triangle intersection, closest-intersection search, render loop

A shallow embedding of `camera.cpp`, `mesh.cpp` and `render_world.cpp`.

Scalars (`double`) are elements of an arbitrary linearly ordered field `K`, so
every operation is exact; the concrete scenes take `K = ℚ`, or the reals where
a square root is needed.  Where the decision the program returns turns on the
rounding of `double`, the same lines are embedded a second time in IEEE
binary64 arithmetic (namespace `Binary64`).  Pointers to objects are
natural-number identities, `nullptr` is `none`.  Code that can fault (a failed
`assert`, an out-of-range subscript, a division by zero) returns
`Except Fault`.
-/

namespace RtGl

/-! ## Vectors, rays, hits -/

/-- Modelled from the spec: vec.h is not among the sources.  A vec3 is the
spec's 3D real-valued vector, with its three components. -/
structure Vec3 (K : Type) where
  x : K
  y : K
  z : K
deriving DecidableEq

namespace Vec3

variable {K : Type} [LinearOrderedField K]

/-- Modelled from the spec: vec.h is not among the sources.  A
default-constructed vector (`vec3 color;`) is the zero vector, the spec's
zero/black contribution. -/
def zero : Vec3 K := ⟨0, 0, 0⟩

/-- Componentwise sum, `u + v`. -/
def add (u v : Vec3 K) : Vec3 K := ⟨u.x + v.x, u.y + v.y, u.z + v.z⟩

/-- Componentwise difference, `u - v`. -/
def sub (u v : Vec3 K) : Vec3 K := ⟨u.x - v.x, u.y - v.y, u.z - v.z⟩

/-- Vector times scalar, `v * s`. -/
def scale (v : Vec3 K) (s : K) : Vec3 K := ⟨v.x * s, v.y * s, v.z * s⟩

/-- Modelled from the spec: vec.h is not among the sources; `dot` is the
Euclidean inner product. -/
def dot (u v : Vec3 K) : K := u.x * v.x + u.y * v.y + u.z * v.z

/-- Modelled from the spec: vec.h is not among the sources; `cross` is the
right-handed vector product. -/
def cross (u v : Vec3 K) : Vec3 K :=
  ⟨u.y * v.z - u.z * v.y, u.z * v.x - u.x * v.z, u.x * v.y - u.y * v.x⟩

end Vec3

/-- A ray of ray.h: `endpoint` and `direction`. -/
structure Ray (K : Type) where
  endpoint : Vec3 K
  direction : Vec3 K

/-- Result of an intersection test (hit.h): the object hit (a non-owning
reference, here the identity of the object, `none` for the null pointer), the
distance along the ray and the part hit. -/
structure Hit (K : Type) where
  object : Option Nat
  dist : K
  part : Int
deriving DecidableEq

/-- Modelled from the spec: hit.h is not among the sources.  NO_INTERSECTION is
the sentinel for "no hit": the object reference is null and the distance is
meaningless (taken as 0, with part 0).  A default-constructed `Hit` is this
sentinel as well. -/
def NO_INTERSECTION {K : Type} [LinearOrderedField K] : Hit K := ⟨none, 0, 0⟩

/-- The polymorphic object capability used by the search (object.h): an
identity standing for the object's address, its `number_parts`, and its virtual
`Intersection(ray, part)`. -/
structure Object (K : Type) where
  id : Nat
  number_parts : Int
  Intersection : Ray K → Int → Hit K

/-! ## `Render_World::Closest_Intersection` (render_world.cpp, lines 23-45) -/

section Closest

variable {K : Type} [LinearOrderedField K]

/-- The local `T_MIN_LIMIT = 0.01`: the minimum distance for a hit to count. -/
def T_MIN_LIMIT : K := 1 / 100

/-- The initial `min_t`, `std::numeric_limits<double>::max()`, which is
`2^1024 - 2^971`. -/
def DBL_MAX : K := 2 ^ 1024 - 2 ^ 971

/-- Body of the inner loop: the test of line 36 and the two assignments.  The
state is the pair `(min_t, closest_hit)`. -/
def Closest_Intersection.visit (st : K × Hit K) (collision : Hit K) : K × Hit K :=
  if collision.dist < st.1 ∧ collision.dist > T_MIN_LIMIT then (collision.dist, collision)
  else st

/-- The indices run through by `for (int i = 0; i < number_parts; i++)`. -/
def part_indices (number_parts : Int) : List Int :=
  (List.range number_parts.toNat).map Int.ofNat

/-- The inner loop over the parts of one object. -/
def Closest_Intersection.scan_object (ray : Ray K) (st : K × Hit K) (obj : Object K) :
    K × Hit K :=
  (part_indices obj.number_parts).foldl
    (fun s i => Closest_Intersection.visit s (obj.Intersection ray i)) st

/-- The search itself: `min_t` starts at the largest double, `closest_hit` is
default-constructed, every part of every object is visited in order, and
`closest_hit` is returned. -/
def Closest_Intersection (objects : List (Object K)) (ray : Ray K) : Hit K :=
  (objects.foldl (Closest_Intersection.scan_object ray) (DBL_MAX, NO_INTERSECTION)).2

/-- Every collision the two loops look at, in the order they look at it. -/
def collisions (objects : List (Object K)) (ray : Ray K) : List (Hit K) :=
  objects.flatMap (fun obj => (part_indices obj.number_parts).map (obj.Intersection ray))

end Closest

/-! ## `Mesh` (mesh.cpp) -/

/-- What a run can die of instead of returning. -/
inductive Fault where
  | assertion
  | subscript
  | division_by_zero
deriving DecidableEq, Repr

/-- Modelled from the spec: plane.h is not among the sources.  A plane is
represented by a point `x1` and a unit `normal`. -/
structure Plane (K : Type) where
  x1 : Vec3 K
  normal : Vec3 K

/-- The mesh: its identity (standing for `this`), the ordered vertices, the
ordered triangles (an `ivec3` of vertex indices each) and `number_parts`. -/
structure Mesh (K : Type) where
  id : Nat
  vertices : List (Vec3 K)
  triangles : List (Int × Int × Int)
  number_parts : Int

section MeshDefs

variable {K : Type} [LinearOrderedField K]

instance : Add (Vec3 K) := ⟨Vec3.add⟩
instance : Sub (Vec3 K) := ⟨Vec3.sub⟩
instance : HMul (Vec3 K) K (Vec3 K) := ⟨Vec3.scale⟩

/-- The constant of line 11, `weight_tolerance = 1e-4`. -/
def weight_tolerance : K := 1 / 10000

/-- Modelled from the spec: `weight_tol`, the name `Intersect_Triangle` compares
against, is declared in none of the given sources; it is the spec's weight
tolerance, 1e-4. -/
def weight_tol : K := weight_tolerance

/-- Subscripting a `std::vector` with an `int`: out of range is a fault. -/
def subscript {α : Type} (xs : List α) (i : Int) : Except Fault α :=
  if i < 0 then Except.error Fault.subscript
  else
    match xs[i.toNat]? with
    | some a => Except.ok a
    | none => Except.error Fault.subscript

/-- Component `k` of an `ivec3`. -/
def ivec3_get (e : Int × Int × Int) (k : Fin 3) : Int :=
  match k with
  | 0 => e.1
  | 1 => e.2.1
  | 2 => e.2.2

/-- The expression `vertices[triangles[tri][k]]`. -/
def Mesh.vertex (mesh : Mesh K) (tri : Int) (k : Fin 3) : Except Fault (Vec3 K) :=
  (subscript mesh.triangles tri).bind fun e => subscript mesh.vertices (ivec3_get e k)

/-- `Mesh::Normal` (lines 61-66).  `normalized` is vec.h's, which is not among
the sources, and is a parameter. -/
def Mesh.Normal (normalized : Vec3 K → Vec3 K) (mesh : Mesh K) (_point : Vec3 K)
    (part : Int) : Except Fault (Vec3 K) :=
  if part < 0 then Except.error Fault.assertion
  else
    (mesh.vertex part 1).bind fun a1 =>
    (mesh.vertex part 0).bind fun a0 =>
    (mesh.vertex part 2).bind fun a2 =>
    (mesh.vertex part 0).bind fun b0 =>
    Except.ok (normalized (Vec3.cross (a1 - a0) (a2 - b0)))

/-- A division that faults on a zero divisor. -/
def checked_div (a b : K) : Except Fault K :=
  if b = 0 then Except.error Fault.division_by_zero else Except.ok (a / b)

/-- The three barycentric weights as lines 117-125 compute them. -/
structure Weights (K : Type) where
  m_weight : K
  v1v0_weight : K
  v2v0_weight : K

/-- The `denom` of line 108, every operation exact.  In exact arithmetic it is
zero on every zero-area triangle; the `double` the program computes there is
`Binary64.denom`, which need not be. -/
def Intersect_Triangle.denom (ray : Ray K) (vert0 vert1 vert2 : Vec3 K) : K :=
  Vec3.dot (Vec3.cross ray.direction (vert1 - vert0)) (vert2 - vert0)

/-- Lines 100-106 and 117-125: the intersection point is formed from the value
`dist` holds on entry, and the weights from it and `inv_denom`. -/
def Intersect_Triangle.weights (ray : Ray K) (vert0 vert1 vert2 : Vec3 K) (dist : K)
    (inv_denom : K) : Weights K :=
  let intersection_point := ray.endpoint + (ray.direction * dist)
  let v1v0 := vert1 - vert0
  let v2v0 := vert2 - vert0
  let t := intersection_point - vert0
  let v1v0_weight := Vec3.dot (Vec3.cross ray.direction v1v0) t * inv_denom
  let v2v0_weight := Vec3.dot (Vec3.cross v2v0 ray.direction) t * inv_denom
  let m_weight := 1 - (v1v0_weight + v2v0_weight)
  ⟨m_weight, v1v0_weight, v2v0_weight⟩

/-- Lines 97-133 of `Mesh::Intersect_Triangle`, once the vertices are fetched
and the supporting plane has answered with `plane_intersection`.  Returns the
boolean and the value of the in/out parameter `dist` on exit. -/
def Intersect_Triangle.test (ray : Ray K) (vert0 vert1 vert2 : Vec3 K)
    (plane_intersection : Hit K) (dist : K) : Except Fault (Bool × K) :=
  if plane_intersection.object = none then Except.ok (false, dist)
  else
    let denom := Intersect_Triangle.denom ray vert0 vert1 vert2
    if denom = 0 then Except.ok (false, dist)
    else
      (checked_div 1 denom).bind fun inv_denom =>
      let w := Intersect_Triangle.weights ray vert0 vert1 vert2 dist inv_denom
      if w.m_weight > 1 * weight_tol ∧ w.v1v0_weight > 1 * weight_tol ∧
          w.v2v0_weight > (-1) * weight_tol then
        Except.ok (true, plane_intersection.dist)
      else Except.ok (false, dist)

/-- `Mesh::Intersect_Triangle` (lines 80-134).  `Plane::Intersection` is in
plane.cpp, which is not among the sources, and is the parameter
`plane_Intersection`. -/
def Mesh.Intersect_Triangle (normalized : Vec3 K → Vec3 K)
    (plane_Intersection : Plane K → Ray K → Int → Hit K)
    (mesh : Mesh K) (ray : Ray K) (tri : Int) (dist : K) : Except Fault (Bool × K) :=
  if tri < 0 then Except.error Fault.assertion
  else
    (mesh.vertex tri 0).bind fun vert0 =>
    (mesh.vertex tri 1).bind fun vert1 =>
    (mesh.vertex tri 2).bind fun vert2 =>
    (Mesh.Normal normalized mesh vert0 tri).bind fun n =>
    let triangle_plane : Plane K := ⟨vert0, n⟩
    let plane_intersection := plane_Intersection triangle_plane ray tri
    Intersect_Triangle.test ray vert0 vert1 vert2 plane_intersection dist

/-- `Mesh::Intersection` (lines 46-58). -/
def Mesh.Intersection (normalized : Vec3 K → Vec3 K)
    (plane_Intersection : Plane K → Ray K → Int → Hit K)
    (mesh : Mesh K) (ray : Ray K) (part : Int) : Except Fault (Hit K) :=
  let intersection : Hit K := NO_INTERSECTION
  let distance : K := -1
  (Mesh.Intersect_Triangle normalized plane_Intersection mesh ray part distance).bind fun r =>
  if r.1 then Except.ok ⟨some mesh.id, r.2, part⟩ else Except.ok intersection

/-- Modelled from the spec: object.h is not among the sources.  `small_t` is
the minimum accepted hit distance, a small positive constant distinct from the
weight tolerance; its value is not in the given sources and 1e-4 is taken. -/
def small_t : K := 1 / 10000

/-- Modelled from the spec: plane.cpp is not among the sources.  The ray-plane
intersection solves for the `t` at which the ray's parametric point satisfies
the plane equation, and fails (no hit) when the ray direction is parallel to
the plane.  A valid hit has a distance greater than `small_t` (the invariant of
`Hit`), so any other `t` is no hit either.  `plane_id` stands for the plane
object's address. -/
def Plane.Intersection (plane_id : Nat) (pl : Plane K) (ray : Ray K) (part : Int) : Hit K :=
  let denom := Vec3.dot ray.direction pl.normal
  if denom = 0 then NO_INTERSECTION
  else
    let t := Vec3.dot (pl.x1 - ray.endpoint) pl.normal / denom
    if t > small_t then ⟨some plane_id, t, part⟩ else NO_INTERSECTION

end MeshDefs

/-! ## IEEE binary64 arithmetic, and `Mesh::Intersect_Triangle` in it

A double is the rational it stands for; every operation is the exact one
followed by rounding to the nearest double, ties to even, each operation
rounded on its own (no fused multiply-add, no wider intermediate format).
Infinities and NaN are not modelled: no value below comes near the largest
finite double. -/

namespace Binary64

/-- The rational `2 ^ e`. -/
def pow2 (e : Int) : ℚ :=
  if 0 ≤ e then ((2 ^ e.toNat : Nat) : ℚ) else 1 / ((2 ^ (-e).toNat : Nat) : ℚ)

/-- The absolute value. -/
def magnitude (q : ℚ) : ℚ := if q < 0 then -q else q

/-- With enough fuel, the number of halvings that bring `n` below 2. -/
def halvings : Nat → Nat → Nat
  | 0, _ => 0
  | fuel + 1, n => if n < 2 then 0 else halvings fuel (n / 2) + 1

/-- The integer binary logarithm of a positive natural number, rounded down. -/
def log2 (n : Nat) : Nat := halvings n n

/-- The binade of a nonzero rational: the `e` with `2 ^ e ≤ |q| < 2 ^ (e + 1)`. -/
def binade (q : ℚ) : Int :=
  let e0 : Int := (log2 q.num.natAbs : Int) - (log2 q.den : Int)
  if magnitude q < pow2 e0 then e0 - 1 else e0

/-- Rounding to the nearest integer, a tie going to the even one. -/
def round_half_even (x : ℚ) : Int :=
  let f := Rat.floor x
  let r := x - f
  if r < 1 / 2 then f else if 1 / 2 < r then f + 1 else if f % 2 = 0 then f else f + 1

/-- The double nearest to a rational (round to nearest, ties to even): 53
significant bits, the exponent not below that of the subnormals.  A result
beyond the largest finite double is not modelled. -/
def round (q : ℚ) : ℚ :=
  if q = 0 then 0
  else
    let e := max (binade q) (-1022)
    let ulp := pow2 (e - 52)
    (round_half_even (q / ulp) : ℚ) * ulp

/-- The sum of two doubles, as a double. -/
def add (a b : ℚ) : ℚ := round (a + b)

/-- The difference of two doubles, as a double. -/
def sub (a b : ℚ) : ℚ := round (a - b)

/-- The product of two doubles, as a double. -/
def mul (a b : ℚ) : ℚ := round (a * b)

/-- The quotient of two doubles, the divisor not zero, as a double. -/
def div (a b : ℚ) : ℚ := round (a / b)

/-- Componentwise `u + v`. -/
def vadd (u v : Vec3 ℚ) : Vec3 ℚ := ⟨add u.x v.x, add u.y v.y, add u.z v.z⟩

/-- Componentwise `u - v`. -/
def vsub (u v : Vec3 ℚ) : Vec3 ℚ := ⟨sub u.x v.x, sub u.y v.y, sub u.z v.z⟩

/-- Vector times scalar, `v * s`. -/
def vscale (v : Vec3 ℚ) (s : ℚ) : Vec3 ℚ := ⟨mul v.x s, mul v.y s, mul v.z s⟩

/-- Modelled from the spec: vec.h is not among the sources; `dot` accumulates
the three products from zero, in order, each operation rounded. -/
def dot (u v : Vec3 ℚ) : ℚ := add (add (add 0 (mul u.x v.x)) (mul u.y v.y)) (mul u.z v.z)

/-- Modelled from the spec: vec.h is not among the sources; `cross` is the
right-handed vector product, each operation rounded. -/
def cross (u v : Vec3 ℚ) : Vec3 ℚ :=
  ⟨sub (mul u.y v.z) (mul u.z v.y), sub (mul u.z v.x) (mul u.x v.z),
    sub (mul u.x v.y) (mul u.y v.x)⟩

/-- Modelled from the spec: `weight_tol` is declared in none of the given
sources; it is the double nearest to the spec's weight tolerance, 1e-4. -/
def weight_tol : ℚ := round (1 / 10000)

/-- The `denom` of line 108, in doubles. -/
def denom (ray : Ray ℚ) (vert0 vert1 vert2 : Vec3 ℚ) : ℚ :=
  dot (cross ray.direction (vsub vert1 vert0)) (vsub vert2 vert0)

/-- Lines 100-106 and 117-125, in doubles. -/
def weights (ray : Ray ℚ) (vert0 vert1 vert2 : Vec3 ℚ) (dist : ℚ) (inv_denom : ℚ) : Weights ℚ :=
  let intersection_point := vadd ray.endpoint (vscale ray.direction dist)
  let v1v0 := vsub vert1 vert0
  let v2v0 := vsub vert2 vert0
  let t := vsub intersection_point vert0
  let v1v0_weight := mul (dot (cross ray.direction v1v0) t) inv_denom
  let v2v0_weight := mul (dot (cross v2v0 ray.direction) t) inv_denom
  let m_weight := sub 1 (add v1v0_weight v2v0_weight)
  ⟨m_weight, v1v0_weight, v2v0_weight⟩

/-- Lines 97-133 of `Mesh::Intersect_Triangle`, in doubles: the boolean and the
value of `dist` on exit. -/
def test (ray : Ray ℚ) (vert0 vert1 vert2 : Vec3 ℚ) (plane_intersection : Hit ℚ) (dist : ℚ) :
    Bool × ℚ :=
  if plane_intersection.object = none then (false, dist)
  else
    let denom := denom ray vert0 vert1 vert2
    if denom = 0 then (false, dist)
    else
      let inv_denom := div 1 denom
      let w := weights ray vert0 vert1 vert2 dist inv_denom
      if w.m_weight > mul 1 weight_tol ∧ w.v1v0_weight > mul 1 weight_tol ∧
          w.v2v0_weight > mul (-1) weight_tol then
        (true, plane_intersection.dist)
      else (false, dist)

end Binary64

/-- `Mesh::Intersect_Triangle` (lines 80-134) in doubles.  It never faults: the
`assert` and the subscripts aside, the one division is by a nonzero double.
The normal handed to the plane is formed in doubles as well; `normalized` and
`plane_Intersection` are the parameters they are in the exact embedding. -/
def Mesh.Intersect_Triangle_binary64 (normalized : Vec3 ℚ → Vec3 ℚ)
    (plane_Intersection : Plane ℚ → Ray ℚ → Int → Hit ℚ)
    (mesh : Mesh ℚ) (ray : Ray ℚ) (tri : Int) (dist : ℚ) : Except Fault (Bool × ℚ) :=
  if tri < 0 then Except.error Fault.assertion
  else
    (mesh.vertex tri 0).bind fun vert0 =>
    (mesh.vertex tri 1).bind fun vert1 =>
    (mesh.vertex tri 2).bind fun vert2 =>
    let n := normalized (Binary64.cross (Binary64.vsub vert1 vert0) (Binary64.vsub vert2 vert0))
    let triangle_plane : Plane ℚ := ⟨vert0, n⟩
    let plane_intersection := plane_Intersection triangle_plane ray tri
    Except.ok (Binary64.test ray vert0 vert1 vert2 plane_intersection dist)

/-- `Mesh::Intersection` (lines 46-58) in doubles. -/
def Mesh.Intersection_binary64 (normalized : Vec3 ℚ → Vec3 ℚ)
    (plane_Intersection : Plane ℚ → Ray ℚ → Int → Hit ℚ)
    (mesh : Mesh ℚ) (ray : Ray ℚ) (part : Int) : Except Fault (Hit ℚ) :=
  let intersection : Hit ℚ := NO_INTERSECTION
  let distance : ℚ := -1
  (Mesh.Intersect_Triangle_binary64 normalized plane_Intersection mesh ray part distance).bind
    fun r =>
  if r.1 then Except.ok ⟨some mesh.id, r.2, part⟩ else Except.ok intersection

/-! ## `Box` and `Mesh::Bounding_Box` (mesh.cpp, lines 138-147) -/

/-- Modelled from the spec: box.h and box.cpp are not among the sources.  An
axis-aligned box has a min and a max corner per axis; it starts empty (the
spec's min > max sentinel, here a constructor of its own) and grows only via
point inclusion. -/
inductive Box (K : Type) where
  | empty
  | corners (lo hi : Vec3 K)

section BoxDefs

variable {K : Type} [LinearOrderedField K]

/-- Modelled from the spec: box.cpp is not among the sources.  `Make_Empty`
makes the box the empty one. -/
def Box.Make_Empty (_b : Box K) : Box K := Box.empty

/-- Modelled from the spec: box.cpp is not among the sources.  `Include_Point`
grows the box by point inclusion: an empty box becomes the point, any other
box lowers its min corner and raises its max corner, axis by axis, as far as
the point asks. -/
def Box.Include_Point (b : Box K) (pt : Vec3 K) : Box K :=
  match b with
  | Box.empty => Box.corners pt pt
  | Box.corners lo hi =>
    Box.corners ⟨min lo.x pt.x, min lo.y pt.y, min lo.z pt.z⟩
      ⟨max hi.x pt.x, max hi.y pt.y, max hi.z pt.z⟩

/-- Whether a point lies in a box. -/
def Box.contains (b : Box K) (pt : Vec3 K) : Prop :=
  match b with
  | Box.empty => False
  | Box.corners lo hi =>
    lo.x ≤ pt.x ∧ pt.x ≤ hi.x ∧ lo.y ≤ pt.y ∧ pt.y ≤ hi.y ∧ lo.z ≤ pt.z ∧ pt.z ≤ hi.z

instance Box.contains_decidable (b : Box K) (pt : Vec3 K) : Decidable (b.contains pt) := by
  cases b <;> unfold Box.contains <;> infer_instance

/-- `Mesh::Bounding_Box` (lines 138-147): the box is emptied, then the three
vertices of triangle `part` are included in turn. -/
def Mesh.Bounding_Box (mesh : Mesh K) (part : Int) : Except Fault (Box K) :=
  let b : Box K := Box.Make_Empty Box.empty
  (mesh.vertex part 0).bind fun p0 =>
  let b := b.Include_Point p0
  (mesh.vertex part 1).bind fun p1 =>
  let b := b.Include_Point p1
  (mesh.vertex part 2).bind fun p2 =>
  let b := b.Include_Point p2
  Except.ok b

end BoxDefs

/-! ## `Camera` (camera.cpp) -/

/-- Modelled from the spec: vec.h is not among the sources.  A vec2 is the
spec's 2D real-valued vector. -/
structure Vec2 (K : Type) where
  x : K
  y : K
deriving DecidableEq

/-- The members of `Camera` that camera.cpp reads or writes (camera.h is not
among the sources).  `number_pixels` is an `ivec2`; `colors` is the pixel
buffer, of which the length asked of `new Pixel[...]` is kept (`none` for the
null pointer). -/
structure Camera (K : Type) where
  position : Vec3 K
  film_position : Vec3 K
  look_vector : Vec3 K
  vertical_vector : Vec3 K
  horizontal_vector : Vec3 K
  min : Vec2 K
  max : Vec2 K
  image_size : Vec2 K
  pixel_size : Vec2 K
  number_pixels : Int × Int
  colors : Option Int

section CameraDefs

variable {K : Type} [LinearOrderedField K]

/-- Modelled from the spec: vec.h is not among the sources.  What `normalized`
is taken to do to a nonzero vector: divide it by its Euclidean length, the
positive `m` with `m * m = dot v v`. -/
def Normalizes (normalized : Vec3 K → Vec3 K) : Prop :=
  ∀ v : Vec3 K, Vec3.dot v v ≠ 0 →
    ∃ m : K, 0 < m ∧ m * m = Vec3.dot v v ∧ normalized v = v * (1 / m)

/-- The constructor `Camera()` (lines 3-6): `colors` is null, the vector
members are default-constructed. -/
def Camera.new : Camera K :=
  ⟨Vec3.zero, Vec3.zero, Vec3.zero, Vec3.zero, Vec3.zero, ⟨0, 0⟩, ⟨0, 0⟩, ⟨0, 0⟩, ⟨0, 0⟩,
    (0, 0), none⟩

/-- `Camera::Position_And_Aim_Camera` (lines 13-20). -/
def Camera.Position_And_Aim_Camera (normalized : Vec3 K → Vec3 K) (cam : Camera K)
    (position_input look_at_point pseudo_up_vector : Vec3 K) : Camera K :=
  let position := position_input
  let look_vector := normalized (look_at_point - position)
  let horizontal_vector := normalized (Vec3.cross look_vector pseudo_up_vector)
  let vertical_vector := normalized (Vec3.cross horizontal_vector look_vector)
  ⟨position, cam.film_position, look_vector, vertical_vector, horizontal_vector, cam.min,
    cam.max, cam.image_size, cam.pixel_size, cam.number_pixels, cam.colors⟩

/-- `Camera::Focus_Camera` (lines 22-29).  `tan` is the C library's, a
parameter. -/
def Camera.Focus_Camera (tan : K → K) (cam : Camera K)
    (focal_distance aspect_ratio field_of_view : K) : Camera K :=
  let film_position := cam.position + cam.look_vector * focal_distance
  let width := 2 * focal_distance * tan ((1 / 2) * field_of_view)
  let height := width / aspect_ratio
  let image_size : Vec2 K := ⟨width, height⟩
  ⟨cam.position, film_position, cam.look_vector, cam.vertical_vector, cam.horizontal_vector,
    cam.min, cam.max, image_size, cam.pixel_size, cam.number_pixels, cam.colors⟩

/-- `Camera::Set_Resolution` (lines 31-39): the buffer is replaced by one of
`number_pixels[0]*number_pixels[1]` pixels, `min` and `max` are minus and plus
half the image size, and the pixel size is the image size divided,
componentwise, by the resolution. -/
def Camera.Set_Resolution (cam : Camera K) (number_pixels_input : Int × Int) : Camera K :=
  let number_pixels := number_pixels_input
  let colors : Option Int := some (number_pixels.1 * number_pixels.2)
  let min : Vec2 K := ⟨(-(1 / 2)) * cam.image_size.x, (-(1 / 2)) * cam.image_size.y⟩
  let max : Vec2 K := ⟨(1 / 2) * cam.image_size.x, (1 / 2) * cam.image_size.y⟩
  let pixel_size : Vec2 K :=
    ⟨cam.image_size.x / (number_pixels.1 : K), cam.image_size.y / (number_pixels.2 : K)⟩
  ⟨cam.position, cam.film_position, cam.look_vector, cam.vertical_vector,
    cam.horizontal_vector, min, max, cam.image_size, pixel_size, number_pixels, colors⟩

/-- `Camera::World_Position` (lines 42-54).  `Cell_Center` is in camera.h, which
is not among the sources, and is a parameter. -/
def Camera.World_Position (Cell_Center : Camera K → Int × Int → Vec2 K) (cam : Camera K)
    (pixel_index : Int × Int) : Vec3 K :=
  let centered_vector := Cell_Center cam pixel_index
  ⟨cam.film_position.x + (cam.horizontal_vector.x * centered_vector.x)
      + (cam.vertical_vector.x * centered_vector.y),
    cam.film_position.y + (cam.horizontal_vector.y * centered_vector.x)
      + (cam.vertical_vector.y * centered_vector.y),
    cam.film_position.z + (cam.horizontal_vector.z * centered_vector.x)
      + (cam.vertical_vector.z * centered_vector.y)⟩

/-- Modelled from the spec: camera.h is not among the sources.  The cell
centre of a pixel is its offset in film-plane coordinates, the pixel index
mapped to the centred coordinate system set up by `min` and the pixel size:
`min + (index + (1/2, 1/2)) * pixel_size`. -/
def Camera.Cell_Center (cam : Camera K) (index : Int × Int) : Vec2 K :=
  ⟨cam.min.x + ((index.1 : K) + 1 / 2) * cam.pixel_size.x,
    cam.min.y + ((index.2 : K) + 1 / 2) * cam.pixel_size.y⟩

end CameraDefs

/-! ## `Render_World` (render_world.cpp) -/

/-- The part of `Render_World` the functions below read or write; `H` is the
type of the acceleration hierarchy (hierarchy.h is not among the sources).  The
background shader (shader.h is not among the sources) is kept as the colour it
gives, the spec's fallback colour on a ray miss; `none` is the null pointer. -/
structure Render_World (K H : Type) where
  objects : List (Object K)
  hierarchy : H
  ambient_intensity : K
  enable_shadows : Bool
  recursion_depth_limit : Int
  camera : Camera K
  background_shader : Option (Vec3 K)

section WorldDefs

variable {K H : Type} [LinearOrderedField K]

/-- The constructor (lines 9-12): no background shader, no ambient light,
shadows on, depth limit 3; the object list starts empty. -/
def Render_World.new (h0 : H) : Render_World K H :=
  ⟨[], h0, 0, true, 3, Camera.new, none⟩

/-- The member function `Closest_Intersection`: it reads `objects` and nothing
else of the world. -/
def Render_World.Closest_Intersection (w : Render_World K H) (ray : Ray K) : Hit K :=
  RtGl.Closest_Intersection w.objects ray

/-- `Render_World::Initialize_Hierarchy` (lines 85-92): the `TODO` fills
nothing in, then the hierarchy reorders its entries and builds its tree.  The
two hierarchy operations are parameters. -/
def Render_World.Initialize_Hierarchy (Reorder_Entries Build_Tree : H → H)
    (w : Render_World K H) : Render_World K H :=
  ⟨w.objects, Build_Tree (Reorder_Entries w.hierarchy), w.ambient_intensity,
    w.enable_shadows, w.recursion_depth_limit, w.camera, w.background_shader⟩

/-- The first statement of `Render_World::Render` (lines 68-69). -/
def Render_World.Render_prepare (disable_hierarchy : Bool)
    (Reorder_Entries Build_Tree : H → H) (w : Render_World K H) : Render_World K H :=
  if !disable_hierarchy then w.Initialize_Hierarchy Reorder_Entries Build_Tree else w

/-- `Render_World::Cast_Ray` (lines 78-83): `vec3 color; TODO; return color;`.
The `TODO` marker computes nothing, so the default-constructed colour is what
comes back. -/
def Render_World.Cast_Ray (_w : Render_World K H) (_ray : Ray K) (_recursion_depth : Int) :
    Vec3 K :=
  let color : Vec3 K := Vec3.zero
  color

/-- Modelled from the spec: ray.h is not among the sources.  The constructor
`Ray(endpoint, direction)`: the direction is normalized at construction. -/
def Ray.construct (normalized : Vec3 K → Vec3 K) (endpoint direction : Vec3 K) : Ray K :=
  ⟨endpoint, normalized direction⟩

/-- A mesh behind the `Object` interface the search calls through.  A fault of
`Mesh::Intersection` (there is none for a part of a well-formed mesh) has no
hit to give back. -/
def Mesh.as_Object (normalized : Vec3 K → Vec3 K)
    (plane_Intersection : Plane K → Ray K → Int → Hit K) (mesh : Mesh K) : Object K :=
  ⟨mesh.id, mesh.number_parts, fun ray part =>
    match mesh.Intersection normalized plane_Intersection ray part with
    | Except.ok hit => hit
    | Except.error _ => NO_INTERSECTION⟩

/-- Lines 51-61 of `Render_World::Render_Pixel`: the primary ray of a pixel. -/
def Render_World.primary_ray (normalized : Vec3 K → Vec3 K)
    (Cell_Center : Camera K → Int × Int → Vec2 K) (w : Render_World K H)
    (pixel_index : Int × Int) : Ray K :=
  let p2 := w.camera.World_Position Cell_Center pixel_index
  let direction_raw : Vec3 K :=
    ⟨p2.x - w.camera.position.x, p2.y - w.camera.position.y, p2.z - w.camera.position.z⟩
  let direction := normalized direction_raw
  Ray.construct normalized w.camera.position direction

/-- `Render_World::Render_Pixel` (lines 48-64).  What it returns here is the one
call `camera.Set_Pixel(pixel_index, Pixel_Color(color))` it makes; `Pixel_Color`
is in camera.h, which is not among the sources, and is a parameter. -/
def Render_World.Render_Pixel (normalized : Vec3 K → Vec3 K)
    (Cell_Center : Camera K → Int × Int → Vec2 K) (Pixel_Color : Vec3 K → Nat)
    (w : Render_World K H) (pixel_index : Int × Int) : (Int × Int) × Nat :=
  let ray := w.primary_ray normalized Cell_Center pixel_index
  let color := w.Cast_Ray ray 1
  (pixel_index, Pixel_Color color)

/-- The pixel indices `ivec2(i,j)` in the order the two loops of
`Render_World::Render` (lines 71-73) produce them: `j` outside, `i` inside. -/
def Render_World.pixel_indices (number_pixels : Int × Int) : List (Int × Int) :=
  (part_indices number_pixels.2).flatMap fun j =>
    (part_indices number_pixels.1).map fun i => (i, j)

/-- `Render_World::Render` (lines 66-74): the hierarchy is initialised unless
disabled, then every pixel is rendered.  The result is the sequence of
`Set_Pixel` calls, in order. -/
def Render_World.Render (disable_hierarchy : Bool) (Reorder_Entries Build_Tree : H → H)
    (normalized : Vec3 K → Vec3 K) (Cell_Center : Camera K → Int × Int → Vec2 K)
    (Pixel_Color : Vec3 K → Nat) (w : Render_World K H) : List ((Int × Int) × Nat) :=
  let w1 := w.Render_prepare disable_hierarchy Reorder_Entries Build_Tree
  (Render_World.pixel_indices w1.camera.number_pixels).map
    (w1.Render_Pixel normalized Cell_Center Pixel_Color)

end WorldDefs

/-! ## The accelerated search of the spec (sections 4.3 and 4.5) -/

/-- Modelled from the spec: hierarchy.h is not among the sources.  An entry of
the acceleration hierarchy: one (object, part) pair, carrying its bounding box
and its identity. -/
structure Entry (K : Type) where
  box : Box K
  obj : Object K
  part : Int

/-- Modelled from the spec: hierarchy.h is not among the sources.  The
hierarchy is a tree over the entries: every node has a box, a leaf owns a few
entries, an internal node two children. -/
inductive Hierarchy (K : Type) where
  | leaf (box : Box K) (entries : List (Entry K))
  | node (box : Box K) (left right : Hierarchy K)

section HierarchyDefs

variable {K : Type} [LinearOrderedField K]

/-- The box of the root of a tree. -/
def Hierarchy.box : Hierarchy K → Box K
  | Hierarchy.leaf b _ => b
  | Hierarchy.node b _ _ => b

/-- The entries a tree owns, left to right. -/
def Hierarchy.entries : Hierarchy K → List (Entry K)
  | Hierarchy.leaf _ es => es
  | Hierarchy.node _ l r => l.entries ++ r.entries

/-- What the exact primitive of an entry answers to a ray. -/
def Entry.hit (ray : Ray K) (e : Entry K) : Hit K := e.obj.Intersection ray e.part

end HierarchyDefs

/-! ## Concrete scenes, over `ℚ` -/

/-- An object all of whose `n` parts are hit at the same distance `d`. -/
def constant_object (id : Nat) (n : Int) (d : ℚ) : Object ℚ :=
  ⟨id, n, fun _ p => ⟨some id, d, p⟩⟩

/-- A ray from the origin along the z axis. -/
def scene_ray : Ray ℚ := ⟨⟨0, 0, 0⟩, ⟨0, 0, 1⟩⟩

/-- Modelled from the spec: vec.h is not among the sources.  `normalized`
divides a vector by its Euclidean length; over `ℚ` the square root is exact
whenever the squared length is the square of a rational, which it is in every
scene below. -/
def normalized_exact (v : Vec3 ℚ) : Vec3 ℚ :=
  let mag := Rat.sqrt (Vec3.dot v v)
  if mag = 0 then ⟨1, 0, 0⟩ else v * (1 / mag)

/-- A mesh of one triangle, (0,0,0), (1,0,0), (0,1,0), in the plane z = 0. -/
def unit_triangle : Mesh ℚ :=
  ⟨1, [⟨0, 0, 0⟩, ⟨1, 0, 0⟩, ⟨0, 1, 0⟩], [(0, 1, 2)], 1⟩

/-- A mesh of one zero-area triangle: its three vertices (0,0,0), (1,1,1),
(5,5,5) are collinear. -/
def collinear_triangle : Mesh ℚ :=
  ⟨3, [⟨0, 0, 0⟩, ⟨1, 1, 1⟩, ⟨5, 5, 5⟩], [(0, 1, 2)], 1⟩

/-- The ray from (-1,-1,-1) with the direction (0.6, 0.8, 0) of the source
text: its components are the doubles nearest to 0.6 and 0.8. -/
def collinear_ray : Ray ℚ :=
  ⟨⟨-1, -1, -1⟩, ⟨Binary64.round (6 / 10), Binary64.round (8 / 10), 0⟩⟩

/-- The ray from (px, py, 1) straight down the z axis (a unit direction); it
meets the plane z = 0 at (px, py, 0), at distance 1. -/
def down_ray (px py : ℚ) : Ray ℚ := ⟨⟨px, py, 1⟩, ⟨0, 0, -1⟩⟩

/-- A world with no object at all and a white background. -/
def white_background_world : Render_World ℚ Unit :=
  ⟨[], (), 0, true, 3, Camera.new, some ⟨1, 1, 1⟩⟩

section Scenes

variable {K : Type} [LinearOrderedField K]

/-- Modelled from the spec: vec.h is not among the sources.  `normalized`
divides a vector by its magnitude, the square root of its squared length; the
square root is a parameter. -/
def normalized_with (sqrt : K → K) (v : Vec3 K) : Vec3 K := v * (1 / sqrt (Vec3.dot v v))

/-- The mesh of the scenario: the single triangle (-1,-1,0), (1,-1,0), (0,1,0). -/
def scene_triangle : Mesh K :=
  ⟨1, [⟨-1, -1, 0⟩, ⟨1, -1, 0⟩, ⟨0, 1, 0⟩], [(0, 1, 2)], 1⟩

/-- The camera of the scenario: at (0,0,5), aimed at `look_at_point` with
pseudo-up (0,1,0), focal distance 1, aspect ratio 1, resolution 2x2. -/
def scene_camera (normalized : Vec3 K → Vec3 K) (tan : K → K) (field_of_view : K)
    (look_at_point : Vec3 K) : Camera K :=
  ((Camera.new.Position_And_Aim_Camera normalized ⟨0, 0, 5⟩ look_at_point
    ⟨0, 1, 0⟩).Focus_Camera tan 1 1 field_of_view).Set_Resolution (2, 2)

/-- The world of the scenario: the mesh and the camera. -/
def scene_world (normalized : Vec3 K → Vec3 K)
    (plane_Intersection : Plane K → Ray K → Int → Hit K) (tan : K → K) (field_of_view : K)
    (look_at_point : Vec3 K) : Render_World K Unit :=
  ⟨[scene_triangle.as_Object normalized plane_Intersection], (), 0, true, 3,
    scene_camera normalized tan field_of_view look_at_point, none⟩

end Scenes

/-! ## Theorems: the closest-intersection search -/

section ClosestTheorems

set_option linter.unusedSectionVars false

variable {K : Type} [LinearOrderedField K]

theorem mem_part_indices (n p : Int) : p ∈ part_indices n ↔ 0 ≤ p ∧ p < n := by
  unfold part_indices
  simp only [List.mem_map, List.mem_range]
  constructor
  · rintro ⟨a, ha, rfl⟩
    have : (Int.ofNat a) = (a : Int) := rfl
    omega
  · rintro ⟨h0, hn⟩
    refine ⟨p.toNat, ?_, ?_⟩
    · omega
    · have : (Int.ofNat p.toNat) = (p.toNat : Int) := rfl
      omega

theorem mem_collisions (objects : List (Object K)) (ray : Ray K) (c : Hit K) :
    c ∈ collisions objects ray ↔
      ∃ obj ∈ objects, ∃ p : Int, 0 ≤ p ∧ p < obj.number_parts ∧ c = obj.Intersection ray p := by
  unfold collisions
  simp only [List.mem_flatMap, List.mem_map, mem_part_indices]
  constructor
  · rintro ⟨obj, ho, p, ⟨h0, hn⟩, rfl⟩
    exact ⟨obj, ho, p, h0, hn, rfl⟩
  · rintro ⟨obj, ho, p, h0, hn, rfl⟩
    exact ⟨obj, ho, p, ⟨h0, hn⟩, rfl⟩

theorem scan_fold (ray : Ray K) (objects : List (Object K)) (st : K × Hit K) :
    objects.foldl (Closest_Intersection.scan_object ray) st =
      (collisions objects ray).foldl Closest_Intersection.visit st := by
  induction objects generalizing st with
  | nil => rfl
  | cons obj rest ih =>
    simp only [List.foldl_cons, collisions, List.flatMap_cons, List.foldl_append]
    rw [ih]
    simp only [collisions, Closest_Intersection.scan_object, List.foldl_map]

theorem Closest_Intersection_eq (objects : List (Object K)) (ray : Ray K) :
    Closest_Intersection objects ray =
      ((collisions objects ray).foldl Closest_Intersection.visit
        (DBL_MAX, NO_INTERSECTION)).2 := by
  unfold Closest_Intersection
  rw [scan_fold]

/-- Loop invariant of the search, from any starting state `(m, h)`: either no
collision was taken and the state is untouched, or the state holds a collision
of the list, the least among those above `T_MIN_LIMIT`, and below `m`. -/
theorem visit_fold (L : List (Hit K)) (m : K) (h : Hit K) :
    (L.foldl Closest_Intersection.visit (m, h) = (m, h) ∧
        ∀ c ∈ L, ¬ (c.dist < m ∧ T_MIN_LIMIT < c.dist)) ∨
      ((L.foldl Closest_Intersection.visit (m, h)).2 ∈ L ∧
        T_MIN_LIMIT < (L.foldl Closest_Intersection.visit (m, h)).2.dist ∧
        (L.foldl Closest_Intersection.visit (m, h)).2.dist < m ∧
        ∀ c ∈ L, T_MIN_LIMIT < c.dist →
          (L.foldl Closest_Intersection.visit (m, h)).2.dist ≤ c.dist) := by
  induction L generalizing m h with
  | nil => left; simp
  | cons c rest ih =>
    simp only [List.foldl_cons]
    by_cases hc : c.dist < m ∧ c.dist > T_MIN_LIMIT
    · have hv : Closest_Intersection.visit (m, h) c = (c.dist, c) := by
        simp only [Closest_Intersection.visit]
        rw [if_pos hc]
      rw [hv]
      right
      rcases ih c.dist c with ⟨he, hall⟩ | ⟨hmem, hT, hlt, hmin⟩
      · rw [he]
        refine ⟨List.mem_cons_self _ _, hc.2, hc.1, ?_⟩
        intro c2 hc2 hT2
        rcases List.mem_cons.mp hc2 with rfl | hin
        · exact le_refl _
        · have := hall c2 hin
          exact not_lt.mp (fun hlt2 => this ⟨hlt2, hT2⟩)
      · refine ⟨List.mem_cons_of_mem _ hmem, hT, lt_trans hlt hc.1, ?_⟩
        intro c2 hc2 hT2
        rcases List.mem_cons.mp hc2 with rfl | hin
        · exact le_of_lt hlt
        · exact hmin c2 hin hT2
    · have hv : Closest_Intersection.visit (m, h) c = (m, h) := by
        simp only [Closest_Intersection.visit]
        rw [if_neg hc]
      rw [hv]
      rcases ih m h with ⟨he, hall⟩ | ⟨hmem, hT, hlt, hmin⟩
      · left
        refine ⟨he, ?_⟩
        intro c2 hc2
        rcases List.mem_cons.mp hc2 with rfl | hin
        · exact hc
        · exact hall c2 hin
      · right
        refine ⟨List.mem_cons_of_mem _ hmem, hT, hlt, ?_⟩
        intro c2 hc2 hT2
        rcases List.mem_cons.mp hc2 with rfl | hin
        · have : ¬ c2.dist < m := fun hlt2 => hc ⟨hlt2, hT2⟩
          exact le_trans (le_of_lt hlt) (not_lt.mp this)
        · exact hmin c2 hin hT2

/-- C1 (amended).  Brute-force search: if some part of some object is hit at a
distance above `T_MIN_LIMIT = 0.01` and below the largest double, the returned
hit is the `Intersection` result of such a part, its distance lies strictly
between those two bounds, and no `Intersection` result with a distance above
`T_MIN_LIMIT` is nearer. -/
theorem Closest_Intersection_least (objects : List (Object K)) (ray : Ray K)
    (h : ∃ obj ∈ objects, ∃ p : Int, 0 ≤ p ∧ p < obj.number_parts ∧
      T_MIN_LIMIT < (obj.Intersection ray p).dist ∧ (obj.Intersection ray p).dist < DBL_MAX) :
    (∃ obj ∈ objects, ∃ p : Int, 0 ≤ p ∧ p < obj.number_parts ∧
        Closest_Intersection objects ray = obj.Intersection ray p) ∧
      T_MIN_LIMIT < (Closest_Intersection objects ray).dist ∧
      (Closest_Intersection objects ray).dist < DBL_MAX ∧
      ∀ obj ∈ objects, ∀ p : Int, 0 ≤ p → p < obj.number_parts →
        T_MIN_LIMIT < (obj.Intersection ray p).dist →
        (Closest_Intersection objects ray).dist ≤ (obj.Intersection ray p).dist := by
  rw [Closest_Intersection_eq]
  rcases visit_fold (collisions objects ray) DBL_MAX NO_INTERSECTION with
    ⟨_, hall⟩ | ⟨hmem, hT, hlt, hmin⟩
  · exfalso
    obtain ⟨obj, ho, p, h0, hn, hT, hlt⟩ := h
    exact hall _ ((mem_collisions objects ray _).mpr ⟨obj, ho, p, h0, hn, rfl⟩) ⟨hlt, hT⟩
  · refine ⟨(mem_collisions objects ray _).mp hmem, hT, hlt, ?_⟩
    intro obj ho p h0 hn hTp
    exact hmin _ ((mem_collisions objects ray _).mpr ⟨obj, ho, p, h0, hn, rfl⟩) hTp

/-- Witness for C1: two objects, hit at distances 5 and 3. -/
theorem Closest_Intersection_least_witness :
    (Closest_Intersection [constant_object 1 1 5, constant_object 2 2 3] scene_ray).dist
        ≤ ((constant_object 1 1 5).Intersection scene_ray 0).dist ∧
      T_MIN_LIMIT < (Closest_Intersection [constant_object 1 1 5, constant_object 2 2 3]
        scene_ray).dist :=
  have h := Closest_Intersection_least [constant_object 1 1 5, constant_object 2 2 3] scene_ray
    ⟨constant_object 1 1 5, by simp, 0, le_refl 0, by simp [constant_object],
      by norm_num [constant_object, T_MIN_LIMIT], by norm_num [constant_object, DBL_MAX]⟩
  ⟨h.2.2.2 (constant_object 1 1 5) (by simp) 0 (le_refl 0) (by simp [constant_object])
      (by norm_num [constant_object, T_MIN_LIMIT]), h.2.1⟩

/-- C1 as stated fails.  (a) An object hit at exactly the largest double is
above every epsilon, yet the search returns the null hit, which is the
`Intersection` result of no part.  (b) An object hit at distance 0.005 is
above every epsilon smaller than 0.005, yet the search returns the null hit:
the epsilon of the search is its own 0.01. -/
theorem Closest_Intersection_counterexample :
    ((∃ obj ∈ [constant_object 1 1 DBL_MAX], ∃ p : Int, 0 ≤ p ∧ p < obj.number_parts ∧
          T_MIN_LIMIT < (obj.Intersection scene_ray p).dist) ∧
        (Closest_Intersection [constant_object 1 1 DBL_MAX] scene_ray).object = none ∧
        ¬ ∃ obj ∈ [constant_object 1 1 DBL_MAX], ∃ p : Int, 0 ≤ p ∧ p < obj.number_parts ∧
          Closest_Intersection [constant_object 1 1 DBL_MAX] scene_ray
            = obj.Intersection scene_ray p) ∧
      (((constant_object 1 1 (1 / 200)).Intersection scene_ray 0).dist = 1 / 200 ∧
        (Closest_Intersection [constant_object 1 1 (1 / 200)] scene_ray).object = none ∧
        ¬ ∃ obj ∈ [constant_object 1 1 (1 / 200)], ∃ p : Int, 0 ≤ p ∧ p < obj.number_parts ∧
          Closest_Intersection [constant_object 1 1 (1 / 200)] scene_ray
            = obj.Intersection scene_ray p) := by
  have hA : Closest_Intersection [constant_object 1 1 DBL_MAX] scene_ray = NO_INTERSECTION := by
    simp [Closest_Intersection, Closest_Intersection.scan_object, part_indices,
      Closest_Intersection.visit, constant_object, List.range_succ]
  have hB : Closest_Intersection [constant_object 1 1 (1 / 200)] scene_ray
      = NO_INTERSECTION := by
    norm_num [Closest_Intersection, Closest_Intersection.scan_object, part_indices,
      Closest_Intersection.visit, constant_object, List.range_succ, T_MIN_LIMIT]
  refine ⟨⟨?_, ?_, ?_⟩, ?_, ?_, ?_⟩
  · exact ⟨constant_object 1 1 DBL_MAX, by simp, 0, le_refl 0, by simp [constant_object],
      by norm_num [constant_object, T_MIN_LIMIT, DBL_MAX]⟩
  · rw [hA]; rfl
  · rw [hA]
    simp [constant_object, NO_INTERSECTION]
  · simp [constant_object]
  · rw [hB]; rfl
  · rw [hB]
    simp [constant_object, NO_INTERSECTION]

/-- C2.  If no part of any object is hit at a distance above the epsilon, for
any epsilon not above the `T_MIN_LIMIT` of the search (that constant itself
included), the search returns the NO_INTERSECTION sentinel, whose object
reference is null; so it does on an empty object list. -/
theorem Closest_Intersection_none (objects : List (Object K)) (ray : Ray K) (eps : K)
    (heps : eps ≤ T_MIN_LIMIT)
    (h : ∀ obj ∈ objects, ∀ p : Int, 0 ≤ p → p < obj.number_parts →
      ¬ eps < (obj.Intersection ray p).dist) :
    Closest_Intersection objects ray = NO_INTERSECTION ∧
      (Closest_Intersection objects ray).object = none ∧
      Closest_Intersection ([] : List (Object K)) ray = NO_INTERSECTION := by
  have hmain : Closest_Intersection objects ray = NO_INTERSECTION := by
    rw [Closest_Intersection_eq]
    rcases visit_fold (collisions objects ray) DBL_MAX NO_INTERSECTION with
      ⟨he, _⟩ | ⟨hmem, hT, _, _⟩
    · rw [he]
    · exfalso
      obtain ⟨obj, ho, p, h0, hn, hp⟩ := (mem_collisions objects ray _).mp hmem
      rw [hp] at hT
      exact h obj ho p h0 hn (lt_of_le_of_lt heps hT)
  refine ⟨hmain, ?_, rfl⟩
  rw [hmain]
  rfl

/-- Witness for C2: one object with three parts, each hit at distance 0.005. -/
theorem Closest_Intersection_none_witness :
    Closest_Intersection [constant_object 1 3 (1 / 200)] scene_ray = NO_INTERSECTION :=
  (Closest_Intersection_none [constant_object 1 3 (1 / 200)] scene_ray T_MIN_LIMIT (le_refl _)
    (by
      intro obj ho p _ _
      simp only [List.mem_singleton] at ho
      subst ho
      norm_num [constant_object, T_MIN_LIMIT])).1

end ClosestTheorems

/-! ## Theorems: the triangle intersection -/

section MeshTheorems

set_option linter.unusedSectionVars false

variable {K : Type} [LinearOrderedField K]

theorem Vec3.add_def (u v : Vec3 K) : u + v = ⟨u.x + v.x, u.y + v.y, u.z + v.z⟩ := rfl

theorem Vec3.sub_def (u v : Vec3 K) : u - v = ⟨u.x - v.x, u.y - v.y, u.z - v.z⟩ := rfl

theorem Vec3.mul_def (v : Vec3 K) (s : K) : v * s = ⟨v.x * s, v.y * s, v.z * s⟩ := rfl

/-- The shared denominator is the triple product: it is also the dot product of
the ray direction with the (unnormalised) normal of the triangle. -/
theorem denom_eq_dot_normal (ray : Ray K) (v0 v1 v2 : Vec3 K) :
    Intersect_Triangle.denom ray v0 v1 v2 =
      Vec3.dot ray.direction (Vec3.cross (v1 - v0) (v2 - v0)) := by
  simp only [Intersect_Triangle.denom, Vec3.dot, Vec3.cross, Vec3.sub_def]
  ring

theorem weight_tol_pos : (0 : K) < weight_tol := by
  unfold weight_tol weight_tolerance
  positivity

/-- Once the three vertices of triangle `tri` are fetched, `Intersect_Triangle`
is the test of lines 97-133 on the answer of the supporting plane. -/
theorem Intersect_Triangle_eq (normalized : Vec3 K → Vec3 K)
    (plane_Intersection : Plane K → Ray K → Int → Hit K) (mesh : Mesh K) (ray : Ray K)
    (tri : Int) (dist : K) (v0 v1 v2 : Vec3 K) (htri : 0 ≤ tri)
    (h0 : mesh.vertex tri 0 = Except.ok v0) (h1 : mesh.vertex tri 1 = Except.ok v1)
    (h2 : mesh.vertex tri 2 = Except.ok v2) :
    Mesh.Intersect_Triangle normalized plane_Intersection mesh ray tri dist =
      Intersect_Triangle.test ray v0 v1 v2
        (plane_Intersection ⟨v0, normalized (Vec3.cross (v1 - v0) (v2 - v0))⟩ ray tri) dist := by
  have hn : ¬ tri < 0 := not_lt.mpr htri
  simp only [Mesh.Intersect_Triangle, Mesh.Normal, hn, if_false, h0, h1, h2, Except.bind]

/-- What the test of lines 97-133 returns, in one formula: it never faults, and
it accepts exactly when the plane answered with a hit, the denominator is
nonzero, `m_weight` and `v1v0_weight` exceed `+weight_tol` and `v2v0_weight`
exceeds `-weight_tol`. -/
theorem Intersect_Triangle_test_eq (ray : Ray K) (v0 v1 v2 : Vec3 K) (ph : Hit K) (dist : K) :
    Intersect_Triangle.test ray v0 v1 v2 ph dist =
      Except.ok
        (if ph.object ≠ none ∧ Intersect_Triangle.denom ray v0 v1 v2 ≠ 0 ∧
            (Intersect_Triangle.weights ray v0 v1 v2 dist
              (1 / Intersect_Triangle.denom ray v0 v1 v2)).m_weight > weight_tol ∧
            (Intersect_Triangle.weights ray v0 v1 v2 dist
              (1 / Intersect_Triangle.denom ray v0 v1 v2)).v1v0_weight > weight_tol ∧
            (Intersect_Triangle.weights ray v0 v1 v2 dist
              (1 / Intersect_Triangle.denom ray v0 v1 v2)).v2v0_weight > -weight_tol
          then (true, ph.dist) else (false, dist)) := by
  unfold Intersect_Triangle.test
  by_cases hp : ph.object = none
  · simp [hp]
  · by_cases hd : Intersect_Triangle.denom ray v0 v1 v2 = 0
    · simp [hp, hd]
    · simp only [hp, hd, if_false, checked_div, Except.bind, ne_eq, not_false_eq_true, true_and,
        one_mul, neg_one_mul, neg_mul]
      split_ifs <;> rfl

theorem unit_triangle_plane_hit (px py : ℚ) :
    Plane.Intersection 7
        ⟨⟨0, 0, 0⟩, normalized_exact (Vec3.cross ((⟨1, 0, 0⟩ : Vec3 ℚ) - ⟨0, 0, 0⟩)
          ((⟨0, 1, 0⟩ : Vec3 ℚ) - ⟨0, 0, 0⟩))⟩ (down_ray px py) 0 = ⟨some 7, 1, 0⟩ := by
  have hs : Rat.sqrt 1 = 1 := by decide
  norm_num [Plane.Intersection, normalized_exact, Vec3.cross, Vec3.dot, Vec3.sub_def,
    Vec3.mul_def, down_ray, hs, small_t]

theorem unit_triangle_weights (px py dist : ℚ) :
    Intersect_Triangle.denom (down_ray px py) ⟨0, 0, 0⟩ ⟨1, 0, 0⟩ ⟨0, 1, 0⟩ = -1 ∧
      Intersect_Triangle.weights (down_ray px py) ⟨0, 0, 0⟩ ⟨1, 0, 0⟩ ⟨0, 1, 0⟩ dist (1 / -1)
        = ⟨1 - (py + px), py, px⟩ := by
  norm_num [Intersect_Triangle.denom, Intersect_Triangle.weights, Vec3.cross, Vec3.dot,
    Vec3.sub_def, Vec3.add_def, Vec3.mul_def, down_ray]

/-- What `Intersect_Triangle` does on the one-triangle mesh for a ray straight
down: the weight it calls `v1v0_weight` is the y coordinate of the point met,
the one it calls `v2v0_weight` the x coordinate. -/
theorem unit_triangle_run (px py dist : ℚ) :
    Mesh.Intersect_Triangle normalized_exact (Plane.Intersection 7) unit_triangle
        (down_ray px py) 0 dist =
      Except.ok (if 1 - (py + px) > weight_tol ∧ py > weight_tol ∧ px > -weight_tol
        then (true, 1) else (false, dist)) := by
  rw [Intersect_Triangle_eq normalized_exact (Plane.Intersection 7) unit_triangle
    (down_ray px py) 0 dist ⟨0, 0, 0⟩ ⟨1, 0, 0⟩ ⟨0, 1, 0⟩ (le_refl 0) rfl rfl rfl,
    Intersect_Triangle_test_eq, unit_triangle_plane_hit, (unit_triangle_weights px py dist).1,
    (unit_triangle_weights px py dist).2]
  simp

/-- C3, at the failing input.  The ray from (1/2, 0, 1) straight down meets the
plane of the triangle (0,0,0), (1,0,0), (0,1,0) on the edge from v0 to v1: the
plane reports a hit, the denominator is nonzero and all three weights exceed
`-weight_tolerance`, yet `Intersect_Triangle` returns false and leaves `dist`
alone, because `v1v0_weight = 0` is compared against `+weight_tol`. -/
theorem Intersect_Triangle_edge_point_rejected :
    Mesh.Intersect_Triangle normalized_exact (Plane.Intersection 7) unit_triangle
        (down_ray (1 / 2) 0) 0 (-1) = Except.ok (false, -1) ∧
      (Plane.Intersection 7
        ⟨⟨0, 0, 0⟩, normalized_exact (Vec3.cross ((⟨1, 0, 0⟩ : Vec3 ℚ) - ⟨0, 0, 0⟩)
          ((⟨0, 1, 0⟩ : Vec3 ℚ) - ⟨0, 0, 0⟩))⟩ (down_ray (1 / 2) 0) 0).object ≠ none ∧
      Intersect_Triangle.denom (down_ray (1 / 2) 0) ⟨0, 0, 0⟩ ⟨1, 0, 0⟩ ⟨0, 1, 0⟩ ≠ 0 ∧
      (Intersect_Triangle.weights (down_ray (1 / 2) 0) ⟨0, 0, 0⟩ ⟨1, 0, 0⟩ ⟨0, 1, 0⟩ (-1)
        (1 / Intersect_Triangle.denom (down_ray (1 / 2) 0) ⟨0, 0, 0⟩ ⟨1, 0, 0⟩ ⟨0, 1, 0⟩)).m_weight
        > -weight_tolerance ∧
      (Intersect_Triangle.weights (down_ray (1 / 2) 0) ⟨0, 0, 0⟩ ⟨1, 0, 0⟩ ⟨0, 1, 0⟩ (-1)
        (1 / Intersect_Triangle.denom (down_ray (1 / 2) 0) ⟨0, 0, 0⟩ ⟨1, 0, 0⟩
          ⟨0, 1, 0⟩)).v1v0_weight > -weight_tolerance ∧
      (Intersect_Triangle.weights (down_ray (1 / 2) 0) ⟨0, 0, 0⟩ ⟨1, 0, 0⟩ ⟨0, 1, 0⟩ (-1)
        (1 / Intersect_Triangle.denom (down_ray (1 / 2) 0) ⟨0, 0, 0⟩ ⟨1, 0, 0⟩
          ⟨0, 1, 0⟩)).v2v0_weight > -weight_tolerance := by
  refine ⟨?_, ?_, ?_, ?_, ?_, ?_⟩
  · rw [unit_triangle_run]
    norm_num [weight_tol, weight_tolerance]
  · rw [unit_triangle_plane_hit]
    simp
  all_goals
    rw [(unit_triangle_weights (1 / 2) 0 (-1)).1]
    try rw [(unit_triangle_weights (1 / 2) 0 (-1)).2]
    norm_num [weight_tolerance]

/-- C4, at the failing input.  For the ray from (-0.00002, -0.00003, 1) straight
down and the triangle (0,0,0), (1,0,0), (0,1,0) the plane reports a hit, the
denominator is nonzero and the weights are exactly
(m_weight, v1v0_weight, v2v0_weight) = (1.00005, -0.00003, -0.00002), yet
`Intersect_Triangle` returns false. -/
theorem Intersect_Triangle_tolerance_band_rejected :
    Mesh.Intersect_Triangle normalized_exact (Plane.Intersection 7) unit_triangle
        (down_ray (-2 / 100000) (-3 / 100000)) 0 (-1) = Except.ok (false, -1) ∧
      (Plane.Intersection 7
        ⟨⟨0, 0, 0⟩, normalized_exact (Vec3.cross ((⟨1, 0, 0⟩ : Vec3 ℚ) - ⟨0, 0, 0⟩)
          ((⟨0, 1, 0⟩ : Vec3 ℚ) - ⟨0, 0, 0⟩))⟩ (down_ray (-2 / 100000) (-3 / 100000)) 0).object
        ≠ none ∧
      Intersect_Triangle.denom (down_ray (-2 / 100000) (-3 / 100000))
        ⟨0, 0, 0⟩ ⟨1, 0, 0⟩ ⟨0, 1, 0⟩ ≠ 0 ∧
      Intersect_Triangle.weights (down_ray (-2 / 100000) (-3 / 100000))
        ⟨0, 0, 0⟩ ⟨1, 0, 0⟩ ⟨0, 1, 0⟩ (-1)
        (1 / Intersect_Triangle.denom (down_ray (-2 / 100000) (-3 / 100000))
          ⟨0, 0, 0⟩ ⟨1, 0, 0⟩ ⟨0, 1, 0⟩)
        = ⟨100005 / 100000, -3 / 100000, -2 / 100000⟩ := by
  refine ⟨?_, ?_, ?_, ?_⟩
  · rw [unit_triangle_run]
    norm_num [weight_tol, weight_tolerance]
  · rw [unit_triangle_plane_hit]
    simp
  · rw [(unit_triangle_weights _ _ (-1)).1]
    norm_num
  · rw [(unit_triangle_weights _ _ (-1)).1, (unit_triangle_weights _ _ (-1)).2]
    norm_num

/-- C5.  For a valid triangle index: whenever one of the three weights is at
most `-weight_tolerance`, `Intersect_Triangle` returns false; and whenever it
returns false, `dist` holds on exit the value it held on entry. -/
theorem Intersect_Triangle_rejects_outside (normalized : Vec3 K → Vec3 K)
    (plane_Intersection : Plane K → Ray K → Int → Hit K) (mesh : Mesh K) (ray : Ray K)
    (tri : Int) (dist : K) (v0 v1 v2 : Vec3 K) (htri : 0 ≤ tri)
    (h0 : mesh.vertex tri 0 = Except.ok v0) (h1 : mesh.vertex tri 1 = Except.ok v1)
    (h2 : mesh.vertex tri 2 = Except.ok v2) :
    ((Intersect_Triangle.weights ray v0 v1 v2 dist
          (1 / Intersect_Triangle.denom ray v0 v1 v2)).m_weight ≤ -weight_tolerance ∨
        (Intersect_Triangle.weights ray v0 v1 v2 dist
          (1 / Intersect_Triangle.denom ray v0 v1 v2)).v1v0_weight ≤ -weight_tolerance ∨
        (Intersect_Triangle.weights ray v0 v1 v2 dist
          (1 / Intersect_Triangle.denom ray v0 v1 v2)).v2v0_weight ≤ -weight_tolerance →
      Mesh.Intersect_Triangle normalized plane_Intersection mesh ray tri dist
        = Except.ok (false, dist)) ∧
      ∀ d : K, Mesh.Intersect_Triangle normalized plane_Intersection mesh ray tri dist
        = Except.ok (false, d) → d = dist := by
  rw [Intersect_Triangle_eq normalized plane_Intersection mesh ray tri dist v0 v1 v2 htri h0 h1 h2,
    Intersect_Triangle_test_eq]
  have hpos : (0 : K) < weight_tol := weight_tol_pos
  have htol : (weight_tolerance : K) = weight_tol := rfl
  constructor
  · intro hw
    rw [if_neg]
    rintro ⟨_, _, hm, h1w, h2w⟩
    rw [htol] at hw
    rcases hw with hw | hw | hw
    · exact absurd (lt_of_lt_of_le hm hw) (not_lt.mpr (by linarith))
    · exact absurd (lt_of_lt_of_le h1w hw) (not_lt.mpr (by linarith))
    · exact absurd (lt_of_lt_of_le h2w hw) (lt_irrefl _)
  · intro d hd
    split_ifs at hd with hacc
    · simp at hd
    · simp only [Except.ok.injEq, Prod.mk.injEq, true_and] at hd
      exact hd.symm

/-- Witness for C5: the ray from (0, -0.01, 1) straight down has
`v1v0_weight = -0.01` and `v2v0_weight = 0` (so `m_weight`, which is one minus
their sum, is 1.01), and is rejected with `dist` unchanged. -/
theorem Intersect_Triangle_rejects_outside_witness :
    Mesh.Intersect_Triangle normalized_exact (Plane.Intersection 7) unit_triangle
      (down_ray 0 (-1 / 100)) 0 (-1) = Except.ok (false, -1) :=
  (Intersect_Triangle_rejects_outside normalized_exact (Plane.Intersection 7) unit_triangle
    (down_ray 0 (-1 / 100)) 0 (-1) ⟨0, 0, 0⟩ ⟨1, 0, 0⟩ ⟨0, 1, 0⟩ (le_refl 0) rfl rfl rfl).1
    (by
      rw [(unit_triangle_weights _ _ (-1)).1, (unit_triangle_weights _ _ (-1)).2]
      norm_num [weight_tolerance])

/-- C6 (amended).  With a nonzero denominator the line of the ray meets the
supporting plane of the triangle in exactly one point X, and the computed
weights are its barycentric coordinates with the two edge weights exchanged:
`v2v0_weight` is the weight of the edge v1-v0 and `v1v0_weight` the weight of
the edge v2-v0, whatever `dist` holds on entry.  So
X = v0 + v2v0_weight*(v1-v0) + v1v0_weight*(v2-v0)
  = m_weight*v0 + v2v0_weight*v1 + v1v0_weight*v2,
with m_weight = 1 - v1v0_weight - v2v0_weight. -/
theorem weights_barycentric_swapped (ray : Ray K) (v0 v1 v2 : Vec3 K) (dist : K)
    (hden : Intersect_Triangle.denom ray v0 v1 v2 ≠ 0) :
    ∃ s : K,
      Vec3.dot ((ray.endpoint + ray.direction * s) - v0) (Vec3.cross (v1 - v0) (v2 - v0)) = 0 ∧
      (∀ r : K, Vec3.dot ((ray.endpoint + ray.direction * r) - v0)
          (Vec3.cross (v1 - v0) (v2 - v0)) = 0 → r = s) ∧
      ray.endpoint + ray.direction * s =
        v0 + (v1 - v0) * (Intersect_Triangle.weights ray v0 v1 v2 dist
            (1 / Intersect_Triangle.denom ray v0 v1 v2)).v2v0_weight
          + (v2 - v0) * (Intersect_Triangle.weights ray v0 v1 v2 dist
            (1 / Intersect_Triangle.denom ray v0 v1 v2)).v1v0_weight ∧
      ray.endpoint + ray.direction * s =
        v0 * (Intersect_Triangle.weights ray v0 v1 v2 dist
            (1 / Intersect_Triangle.denom ray v0 v1 v2)).m_weight
          + v1 * (Intersect_Triangle.weights ray v0 v1 v2 dist
            (1 / Intersect_Triangle.denom ray v0 v1 v2)).v2v0_weight
          + v2 * (Intersect_Triangle.weights ray v0 v1 v2 dist
            (1 / Intersect_Triangle.denom ray v0 v1 v2)).v1v0_weight ∧
      (Intersect_Triangle.weights ray v0 v1 v2 dist
          (1 / Intersect_Triangle.denom ray v0 v1 v2)).m_weight =
        1 - (Intersect_Triangle.weights ray v0 v1 v2 dist
            (1 / Intersect_Triangle.denom ray v0 v1 v2)).v1v0_weight
          - (Intersect_Triangle.weights ray v0 v1 v2 dist
            (1 / Intersect_Triangle.denom ray v0 v1 v2)).v2v0_weight := by
  obtain ⟨⟨ex, ey, ez⟩, ⟨dx, dy, dz⟩⟩ := ray
  obtain ⟨ax, ay, az⟩ := v0
  obtain ⟨bx, by_, bz⟩ := v1
  obtain ⟨cx, cy, cz⟩ := v2
  simp only [Intersect_Triangle.denom, Vec3.dot, Vec3.cross, Vec3.sub_def] at hden
  refine ⟨Vec3.dot ((⟨ax, ay, az⟩ : Vec3 K) - ⟨ex, ey, ez⟩)
      (Vec3.cross ((⟨bx, by_, bz⟩ : Vec3 K) - ⟨ax, ay, az⟩) ((⟨cx, cy, cz⟩ : Vec3 K) - ⟨ax, ay, az⟩))
      / ((dy * (bz - az) - dz * (by_ - ay)) * (cx - ax) + (dz * (bx - ax) - dx * (bz - az)) * (cy - ay)
        + (dx * (by_ - ay) - dy * (bx - ax)) * (cz - az)), ?_, ?_, ?_, ?_, ?_⟩
  · simp only [Vec3.dot, Vec3.cross, Vec3.sub_def, Vec3.add_def, Vec3.mul_def]
    field_simp
    ring
  · intro r hr
    simp only [Vec3.dot, Vec3.cross, Vec3.sub_def, Vec3.add_def, Vec3.mul_def] at hr ⊢
    rw [eq_div_iff hden]
    linear_combination hr
  · simp only [Intersect_Triangle.weights, Intersect_Triangle.denom, Vec3.dot, Vec3.cross,
      Vec3.sub_def, Vec3.add_def, Vec3.mul_def, Vec3.mk.injEq]
    refine ⟨?_, ?_, ?_⟩ <;> field_simp <;> ring
  · simp only [Intersect_Triangle.weights, Intersect_Triangle.denom, Vec3.dot, Vec3.cross,
      Vec3.sub_def, Vec3.add_def, Vec3.mul_def, Vec3.mk.injEq]
    refine ⟨?_, ?_, ?_⟩ <;> field_simp <;> ring
  · simp only [Intersect_Triangle.weights]
    ring

/-- Witness for C6: the ray from (1/2, 1/4, 1) straight down and the triangle
(0,0,0), (1,0,0), (0,1,0). -/
theorem weights_barycentric_swapped_witness :
    ∃ s : ℚ, (down_ray (1 / 2) (1 / 4)).endpoint + (down_ray (1 / 2) (1 / 4)).direction * s =
      (⟨0, 0, 0⟩ : Vec3 ℚ)
        + ((⟨1, 0, 0⟩ : Vec3 ℚ) - ⟨0, 0, 0⟩) * (Intersect_Triangle.weights (down_ray (1 / 2) (1 / 4))
            ⟨0, 0, 0⟩ ⟨1, 0, 0⟩ ⟨0, 1, 0⟩ (-1)
            (1 / Intersect_Triangle.denom (down_ray (1 / 2) (1 / 4))
              ⟨0, 0, 0⟩ ⟨1, 0, 0⟩ ⟨0, 1, 0⟩)).v2v0_weight
        + ((⟨0, 1, 0⟩ : Vec3 ℚ) - ⟨0, 0, 0⟩) * (Intersect_Triangle.weights (down_ray (1 / 2) (1 / 4))
            ⟨0, 0, 0⟩ ⟨1, 0, 0⟩ ⟨0, 1, 0⟩ (-1)
            (1 / Intersect_Triangle.denom (down_ray (1 / 2) (1 / 4))
              ⟨0, 0, 0⟩ ⟨1, 0, 0⟩ ⟨0, 1, 0⟩)).v1v0_weight :=
  (weights_barycentric_swapped (down_ray (1 / 2) (1 / 4)) ⟨0, 0, 0⟩ ⟨1, 0, 0⟩ ⟨0, 1, 0⟩ (-1)
    (by rw [(unit_triangle_weights _ _ (-1)).1]; norm_num)).imp fun _ h => h.2.2.1

/-- C6 as stated fails.  The ray from (1/2, 1/4, 1) straight down meets the
plane of the triangle (0,0,0), (1,0,0), (0,1,0) at X = (1/2, 1/4, 0), with a
nonzero denominator; the computed `v1v0_weight` is 1/4 and `v2v0_weight` is
1/2, so v0 + v1v0_weight*(v1-v0) + v2v0_weight*(v2-v0) is (1/4, 1/2, 0), not X. -/
theorem weights_barycentric_counterexample :
    Intersect_Triangle.denom (down_ray (1 / 2) (1 / 4)) ⟨0, 0, 0⟩ ⟨1, 0, 0⟩ ⟨0, 1, 0⟩ ≠ 0 ∧
      (down_ray (1 / 2) (1 / 4)).endpoint + (down_ray (1 / 2) (1 / 4)).direction * (1 : ℚ)
        = ⟨1 / 2, 1 / 4, 0⟩ ∧
      Vec3.dot ((⟨1 / 2, 1 / 4, 0⟩ : Vec3 ℚ) - ⟨0, 0, 0⟩)
        (Vec3.cross ((⟨1, 0, 0⟩ : Vec3 ℚ) - ⟨0, 0, 0⟩) ((⟨0, 1, 0⟩ : Vec3 ℚ) - ⟨0, 0, 0⟩)) = 0 ∧
      (⟨0, 0, 0⟩ : Vec3 ℚ)
        + ((⟨1, 0, 0⟩ : Vec3 ℚ) - ⟨0, 0, 0⟩) * (Intersect_Triangle.weights (down_ray (1 / 2) (1 / 4))
            ⟨0, 0, 0⟩ ⟨1, 0, 0⟩ ⟨0, 1, 0⟩ (-1)
            (1 / Intersect_Triangle.denom (down_ray (1 / 2) (1 / 4))
              ⟨0, 0, 0⟩ ⟨1, 0, 0⟩ ⟨0, 1, 0⟩)).v1v0_weight
        + ((⟨0, 1, 0⟩ : Vec3 ℚ) - ⟨0, 0, 0⟩) * (Intersect_Triangle.weights (down_ray (1 / 2) (1 / 4))
            ⟨0, 0, 0⟩ ⟨1, 0, 0⟩ ⟨0, 1, 0⟩ (-1)
            (1 / Intersect_Triangle.denom (down_ray (1 / 2) (1 / 4))
              ⟨0, 0, 0⟩ ⟨1, 0, 0⟩ ⟨0, 1, 0⟩)).v2v0_weight
        = ⟨1 / 4, 1 / 2, 0⟩ ∧
      (⟨1 / 4, 1 / 2, 0⟩ : Vec3 ℚ) ≠ ⟨1 / 2, 1 / 4, 0⟩ := by
  refine ⟨?_, ?_, ?_, ?_, ?_⟩
  · rw [(unit_triangle_weights _ _ (-1)).1]; norm_num
  · norm_num [down_ray, Vec3.add_def, Vec3.mul_def]
  · norm_num [Vec3.dot, Vec3.cross, Vec3.sub_def]
  · rw [(unit_triangle_weights _ _ (-1)).1, (unit_triangle_weights _ _ (-1)).2]
    norm_num [Vec3.add_def, Vec3.mul_def, Vec3.sub_def]
  · norm_num

/-- C7.  For a valid triangle index, with `ph` the answer of the supporting
plane: `Intersect_Triangle` returns (it never faults); whenever it accepts, the
distance it outputs is `ph.dist`; when the call made by `Mesh::Intersection`
accepts, `Intersection` returns the hit (this mesh, `ph.dist`, part); when it
rejects, `Intersection` returns NO_INTERSECTION. -/
theorem Intersection_dist_from_plane (normalized : Vec3 K → Vec3 K)
    (plane_Intersection : Plane K → Ray K → Int → Hit K) (mesh : Mesh K) (ray : Ray K)
    (part : Int) (v0 v1 v2 : Vec3 K) (hpart : 0 ≤ part)
    (h0 : mesh.vertex part 0 = Except.ok v0) (h1 : mesh.vertex part 1 = Except.ok v1)
    (h2 : mesh.vertex part 2 = Except.ok v2) :
    (∀ dist : K, ∃ b d, Mesh.Intersect_Triangle normalized plane_Intersection mesh ray part dist
        = Except.ok (b, d)) ∧
      (∀ dist d : K, Mesh.Intersect_Triangle normalized plane_Intersection mesh ray part dist
          = Except.ok (true, d) →
        d = (plane_Intersection ⟨v0, normalized (Vec3.cross (v1 - v0) (v2 - v0))⟩ ray part).dist) ∧
      (∀ d : K, Mesh.Intersect_Triangle normalized plane_Intersection mesh ray part (-1)
          = Except.ok (true, d) →
        Mesh.Intersection normalized plane_Intersection mesh ray part = Except.ok ⟨some mesh.id,
          (plane_Intersection ⟨v0, normalized (Vec3.cross (v1 - v0) (v2 - v0))⟩ ray part).dist,
          part⟩) ∧
      (∀ d : K, Mesh.Intersect_Triangle normalized plane_Intersection mesh ray part (-1)
          = Except.ok (false, d) →
        Mesh.Intersection normalized plane_Intersection mesh ray part
          = Except.ok NO_INTERSECTION) := by
  have hacc : ∀ dist d : K, Mesh.Intersect_Triangle normalized plane_Intersection mesh ray part dist
      = Except.ok (true, d) →
      d = (plane_Intersection ⟨v0, normalized (Vec3.cross (v1 - v0) (v2 - v0))⟩ ray part).dist := by
    intro dist d hd
    rw [Intersect_Triangle_eq normalized plane_Intersection mesh ray part dist v0 v1 v2 hpart
      h0 h1 h2, Intersect_Triangle_test_eq] at hd
    split_ifs at hd with hc
    · simp only [Except.ok.injEq, Prod.mk.injEq, true_and] at hd
      exact hd.symm
    · simp at hd
  refine ⟨?_, hacc, ?_, ?_⟩
  · intro dist
    rw [Intersect_Triangle_eq normalized plane_Intersection mesh ray part dist v0 v1 v2 hpart
      h0 h1 h2, Intersect_Triangle_test_eq]
    exact ⟨_, _, rfl⟩
  · intro d hd
    have hdist := hacc (-1) d hd
    simp only [Mesh.Intersection, hd, Except.bind, if_true, hdist]
  · intro d hd
    simp only [Mesh.Intersection, hd, Except.bind]
    rfl

/-- Witness for C7: the ray from (1/4, 1/4, 1) straight down is accepted by the
triangle (0,0,0), (1,0,0), (0,1,0), and `Intersection` returns the hit of mesh
1 at the plane distance 1 on part 0. -/
theorem Intersection_dist_from_plane_witness :
    Mesh.Intersection normalized_exact (Plane.Intersection 7) unit_triangle
      (down_ray (1 / 4) (1 / 4)) 0 = Except.ok ⟨some 1, 1, 0⟩ := by
  have h := (Intersection_dist_from_plane normalized_exact (Plane.Intersection 7) unit_triangle
    (down_ray (1 / 4) (1 / 4)) 0 ⟨0, 0, 0⟩ ⟨1, 0, 0⟩ ⟨0, 1, 0⟩ (le_refl 0) rfl rfl rfl).2.2.1 1
    (by rw [unit_triangle_run]; norm_num [weight_tol, weight_tolerance])
  rw [unit_triangle_plane_hit] at h
  exact h

end MeshTheorems

/-! ## Theorems: the degenerate triangle, in doubles -/

section Binary64Theorems

/-- Once the three vertices of triangle `tri` are fetched, the double
`Intersect_Triangle` is the double test of lines 97-133 on the answer of the
supporting plane. -/
theorem Intersect_Triangle_binary64_eq (normalized : Vec3 ℚ → Vec3 ℚ)
    (plane_Intersection : Plane ℚ → Ray ℚ → Int → Hit ℚ) (mesh : Mesh ℚ) (ray : Ray ℚ)
    (tri : Int) (dist : ℚ) (v0 v1 v2 : Vec3 ℚ) (htri : 0 ≤ tri)
    (h0 : mesh.vertex tri 0 = Except.ok v0) (h1 : mesh.vertex tri 1 = Except.ok v1)
    (h2 : mesh.vertex tri 2 = Except.ok v2) :
    Mesh.Intersect_Triangle_binary64 normalized plane_Intersection mesh ray tri dist =
      Except.ok (Binary64.test ray v0 v1 v2
        (plane_Intersection
          ⟨v0, normalized (Binary64.cross (Binary64.vsub v1 v0) (Binary64.vsub v2 v0))⟩ ray tri)
        dist) := by
  have hn : ¬ tri < 0 := not_lt.mpr htri
  simp only [Mesh.Intersect_Triangle_binary64, hn, if_false, h0, h1, h2, Except.bind]

/-- C8, at the failing input.  The vertices (0,0,0), (1,1,1), (5,5,5) are
collinear and their cross product is the zero vector, in doubles as in exact
arithmetic, so the direction (0.6, 0.8, 0) is orthogonal to it.  In exact
arithmetic the denominator of line 108 is zero and `Mesh::Intersection` returns
NO_INTERSECTION.  In doubles the denominator is -2^-51, the guard of line 111
does not fire, the weights (0.75, 0.25, 0) pass line 128, and with a plane step that reports a
hit at distance 1 `Intersect_Triangle` returns true and `Mesh::Intersection` a
hit on the mesh. -/
theorem Intersect_Triangle_degenerate_accepted :
    Binary64.cross (Binary64.vsub ⟨1, 1, 1⟩ ⟨0, 0, 0⟩) (Binary64.vsub ⟨5, 5, 5⟩ ⟨0, 0, 0⟩) =
        ⟨0, 0, 0⟩ ∧
      Vec3.dot collinear_ray.direction
        (Vec3.cross ((⟨1, 1, 1⟩ : Vec3 ℚ) - ⟨0, 0, 0⟩) ((⟨5, 5, 5⟩ : Vec3 ℚ) - ⟨0, 0, 0⟩)) = 0 ∧
      Mesh.Intersection normalized_exact (fun _ _ p => ⟨some 7, 1, p⟩) collinear_triangle
        collinear_ray 0 = Except.ok NO_INTERSECTION ∧
      Binary64.denom collinear_ray ⟨0, 0, 0⟩ ⟨1, 1, 1⟩ ⟨5, 5, 5⟩ = -1 / 2251799813685248 ∧
      (Binary64.weights collinear_ray ⟨0, 0, 0⟩ ⟨1, 1, 1⟩ ⟨5, 5, 5⟩ (-1)
        (Binary64.div 1 (-1 / 2251799813685248))).m_weight = 3 / 4 ∧
      (Binary64.weights collinear_ray ⟨0, 0, 0⟩ ⟨1, 1, 1⟩ ⟨5, 5, 5⟩ (-1)
        (Binary64.div 1 (-1 / 2251799813685248))).v1v0_weight = 1 / 4 ∧
      (Binary64.weights collinear_ray ⟨0, 0, 0⟩ ⟨1, 1, 1⟩ ⟨5, 5, 5⟩ (-1)
        (Binary64.div 1 (-1 / 2251799813685248))).v2v0_weight = 0 ∧
      Mesh.Intersect_Triangle_binary64 normalized_exact (fun _ _ p => ⟨some 7, 1, p⟩)
        collinear_triangle collinear_ray 0 (-1) = Except.ok (true, 1) ∧
      Mesh.Intersection_binary64 normalized_exact (fun _ _ p => ⟨some 7, 1, p⟩)
        collinear_triangle collinear_ray 0 = Except.ok ⟨some 3, 1, 0⟩ := by
  have hcross : Binary64.cross (Binary64.vsub ⟨1, 1, 1⟩ ⟨0, 0, 0⟩)
      (Binary64.vsub ⟨5, 5, 5⟩ ⟨0, 0, 0⟩) = ⟨0, 0, 0⟩ := by decide!
  have hdot : Vec3.dot collinear_ray.direction
      (Vec3.cross ((⟨1, 1, 1⟩ : Vec3 ℚ) - ⟨0, 0, 0⟩) ((⟨5, 5, 5⟩ : Vec3 ℚ) - ⟨0, 0, 0⟩)) = 0 := by
    simp only [Vec3.dot, Vec3.cross, Vec3.sub_def]
    ring
  have hexact : Mesh.Intersection normalized_exact (fun _ _ p => ⟨some 7, 1, p⟩)
      collinear_triangle collinear_ray 0 = Except.ok NO_INTERSECTION := by
    have hrej : Mesh.Intersect_Triangle normalized_exact (fun _ _ p => ⟨some 7, 1, p⟩)
        collinear_triangle collinear_ray 0 (-1) = Except.ok (false, -1) := by
      rw [Intersect_Triangle_eq normalized_exact (fun _ _ p => ⟨some 7, 1, p⟩) collinear_triangle
        collinear_ray 0 (-1) ⟨0, 0, 0⟩ ⟨1, 1, 1⟩ ⟨5, 5, 5⟩ (le_refl 0) rfl rfl rfl,
        Intersect_Triangle_test_eq, denom_eq_dot_normal, hdot]
      simp
    simp only [Mesh.Intersection, hrej, Except.bind]
    rfl
  have hdenom : Binary64.denom collinear_ray ⟨0, 0, 0⟩ ⟨1, 1, 1⟩ ⟨5, 5, 5⟩ =
      -1 / 2251799813685248 := by decide!
  have htest : Binary64.test collinear_ray ⟨0, 0, 0⟩ ⟨1, 1, 1⟩ ⟨5, 5, 5⟩ ⟨some 7, 1, 0⟩ (-1) =
      (true, 1) := by decide!
  have hrun : Mesh.Intersect_Triangle_binary64 normalized_exact (fun _ _ p => ⟨some 7, 1, p⟩)
      collinear_triangle collinear_ray 0 (-1) = Except.ok (true, 1) := by
    rw [Intersect_Triangle_binary64_eq normalized_exact (fun _ _ p => ⟨some 7, 1, p⟩)
      collinear_triangle collinear_ray 0 (-1) ⟨0, 0, 0⟩ ⟨1, 1, 1⟩ ⟨5, 5, 5⟩ (le_refl 0) rfl rfl rfl,
      htest]
  refine ⟨hcross, hdot, hexact, hdenom, by decide!, by decide!, by decide!, hrun, ?_⟩
  simp only [Mesh.Intersection_binary64, hrun, Except.bind, if_true]
  rfl

end Binary64Theorems

/-! ## Theorems: the accelerated search, and ray casting beyond the depth limit -/

section HierarchyTheorems

set_option linter.unusedSectionVars false

variable {K : Type} [LinearOrderedField K]

end HierarchyTheorems

section CastRayTheorems

variable {K H : Type} [LinearOrderedField K]

end CastRayTheorems

/-! ## Theorems: ray casting on a miss, the camera film, the bounding box, the render loop -/

section LaterTheorems

set_option linter.unusedSectionVars false

variable {K H : Type} [LinearOrderedField K]

/-- C11, at the failing input.  In a world with no object and a white
background, the closest intersection of any ray is NO_INTERSECTION and depth 1
does not exceed the depth limit 3, yet `Cast_Ray` returns black, not the
background colour. -/
theorem Cast_Ray_miss_returns_black :
    white_background_world.Closest_Intersection scene_ray = NO_INTERSECTION ∧
      (1 : Int) ≤ white_background_world.recursion_depth_limit ∧
      white_background_world.background_shader = some ⟨1, 1, 1⟩ ∧
      white_background_world.Cast_Ray scene_ray 1 = ⟨0, 0, 0⟩ ∧
      white_background_world.Cast_Ray scene_ray 1 ≠ ⟨1, 1, 1⟩ := by
  refine ⟨rfl, by decide, rfl, rfl, ?_⟩
  simp [Render_World.Cast_Ray, Vec3.zero]

/-- C13.  After `Focus_Camera(f, aspect, fov)` and `Set_Resolution(cols, rows)`
with positive `cols` and `rows` and nonzero `aspect`: the image size is
(2 f tan(fov/2), 2 f tan(fov/2) / aspect), the film position is
position + look_vector * f, min = -max and max - min = image size, and pixel
size times (cols, rows), componentwise, is the image size. -/
theorem Focus_Camera_Set_Resolution (tan : K → K) (cam : Camera K) (f aspect fov : K)
    (cols rows : Int) (hc : 0 < cols) (hr : 0 < rows) (ha : aspect ≠ 0) :
    ((cam.Focus_Camera tan f aspect fov).Set_Resolution (cols, rows)).image_size
        = ⟨2 * f * tan (fov / 2), 2 * f * tan (fov / 2) / aspect⟩ ∧
      ((cam.Focus_Camera tan f aspect fov).Set_Resolution (cols, rows)).film_position
        = cam.position + cam.look_vector * f ∧
      ((cam.Focus_Camera tan f aspect fov).Set_Resolution (cols, rows)).min
        = ⟨-((cam.Focus_Camera tan f aspect fov).Set_Resolution (cols, rows)).max.x,
            -((cam.Focus_Camera tan f aspect fov).Set_Resolution (cols, rows)).max.y⟩ ∧
      ((cam.Focus_Camera tan f aspect fov).Set_Resolution (cols, rows)).max.x
          - ((cam.Focus_Camera tan f aspect fov).Set_Resolution (cols, rows)).min.x
        = ((cam.Focus_Camera tan f aspect fov).Set_Resolution (cols, rows)).image_size.x ∧
      ((cam.Focus_Camera tan f aspect fov).Set_Resolution (cols, rows)).max.y
          - ((cam.Focus_Camera tan f aspect fov).Set_Resolution (cols, rows)).min.y
        = ((cam.Focus_Camera tan f aspect fov).Set_Resolution (cols, rows)).image_size.y ∧
      ((cam.Focus_Camera tan f aspect fov).Set_Resolution (cols, rows)).pixel_size.x * (cols : K)
        = ((cam.Focus_Camera tan f aspect fov).Set_Resolution (cols, rows)).image_size.x ∧
      ((cam.Focus_Camera tan f aspect fov).Set_Resolution (cols, rows)).pixel_size.y * (rows : K)
        = ((cam.Focus_Camera tan f aspect fov).Set_Resolution (cols, rows)).image_size.y := by
  have hcK : (cols : K) ≠ 0 := by exact_mod_cast (ne_of_gt hc)
  have hrK : (rows : K) ≠ 0 := by exact_mod_cast (ne_of_gt hr)
  have hfov : (1 / 2 : K) * fov = fov / 2 := by ring
  refine ⟨?_, ?_, ?_, ?_, ?_, ?_, ?_⟩
  · simp only [Camera.Set_Resolution, Camera.Focus_Camera, hfov]
  · simp only [Camera.Set_Resolution, Camera.Focus_Camera]
  · simp only [Camera.Set_Resolution, Camera.Focus_Camera, Vec2.mk.injEq]
    constructor <;> ring
  · simp only [Camera.Set_Resolution, Camera.Focus_Camera]
    ring
  · simp only [Camera.Set_Resolution, Camera.Focus_Camera]
    ring
  · simp only [Camera.Set_Resolution, Camera.Focus_Camera]
    field_simp
  · simp only [Camera.Set_Resolution, Camera.Focus_Camera]
    field_simp
    ring

/-- Witness for C13: focal distance 1, aspect ratio 2, resolution 4x2, with a
tangent function worth 1 at the half angle. -/
theorem Focus_Camera_Set_Resolution_witness :
    (((Camera.new : Camera ℚ).Focus_Camera (fun _ => 1) 1 2 90).Set_Resolution (4, 2)).image_size
        = ⟨2, 1⟩ ∧
      (((Camera.new : Camera ℚ).Focus_Camera (fun _ => 1) 1 2 90).Set_Resolution
        (4, 2)).pixel_size.x * ((4 : Int) : ℚ) = 2 := by
  have h := Focus_Camera_Set_Resolution (fun _ => (1 : ℚ)) Camera.new 1 2 90 4 2 (by decide)
    (by decide) (by norm_num)
  refine ⟨?_, ?_⟩
  · rw [h.1]; norm_num
  · rw [h.2.2.2.2.2.1, h.1]; norm_num

theorem convex_ge (l a b c x y z : K) (hx : l ≤ x) (hy : l ≤ y) (hz : l ≤ z) (ha : 0 ≤ a)
    (hb : 0 ≤ b) (hc : 0 ≤ c) (h1 : a + b + c = 1) : l ≤ x * a + y * b + z * c := by
  have hl : l * (a + b + c) = l := by rw [h1, mul_one]
  linarith [mul_nonneg ha (sub_nonneg.2 hx), mul_nonneg hb (sub_nonneg.2 hy),
    mul_nonneg hc (sub_nonneg.2 hz)]

theorem convex_le (u a b c x y z : K) (hx : x ≤ u) (hy : y ≤ u) (hz : z ≤ u) (ha : 0 ≤ a)
    (hb : 0 ≤ b) (hc : 0 ≤ c) (h1 : a + b + c = 1) : x * a + y * b + z * c ≤ u := by
  have hu : u * (a + b + c) = u := by rw [h1, mul_one]
  linarith [mul_nonneg ha (sub_nonneg.2 hx), mul_nonneg hb (sub_nonneg.2 hy),
    mul_nonneg hc (sub_nonneg.2 hz)]

/-- C14.  For a valid part index, with v0, v1, v2 the vertices of the triangle:
`Bounding_Box(part)` is the box whose min corner is, axis by axis, the least and
whose max corner the greatest of the three coordinates; it contains the three
vertices and every convex combination of them, and every box containing the
three vertices contains it. -/
theorem Bounding_Box_tight (mesh : Mesh K) (part : Int) (v0 v1 v2 : Vec3 K)
    (h0 : mesh.vertex part 0 = Except.ok v0) (h1 : mesh.vertex part 1 = Except.ok v1)
    (h2 : mesh.vertex part 2 = Except.ok v2) :
    mesh.Bounding_Box part = Except.ok (Box.corners
        ⟨min (min v0.x v1.x) v2.x, min (min v0.y v1.y) v2.y, min (min v0.z v1.z) v2.z⟩
        ⟨max (max v0.x v1.x) v2.x, max (max v0.y v1.y) v2.y, max (max v0.z v1.z) v2.z⟩) ∧
      (∀ b : Box K, mesh.Bounding_Box part = Except.ok b →
        b.contains v0 ∧ b.contains v1 ∧ b.contains v2 ∧
        (∀ a1 a2 a3 : K, 0 ≤ a1 → 0 ≤ a2 → 0 ≤ a3 → a1 + a2 + a3 = 1 →
          b.contains (v0 * a1 + v1 * a2 + v2 * a3)) ∧
        (∀ lo hi : Vec3 K, (Box.corners lo hi).contains v0 → (Box.corners lo hi).contains v1 →
          (Box.corners lo hi).contains v2 → ∀ pt : Vec3 K, b.contains pt →
            (Box.corners lo hi).contains pt)) := by
  have hbox : mesh.Bounding_Box part = Except.ok (Box.corners
      ⟨min (min v0.x v1.x) v2.x, min (min v0.y v1.y) v2.y, min (min v0.z v1.z) v2.z⟩
      ⟨max (max v0.x v1.x) v2.x, max (max v0.y v1.y) v2.y, max (max v0.z v1.z) v2.z⟩) := by
    simp only [Mesh.Bounding_Box, h0, h1, h2, Except.bind, Box.Make_Empty, Box.Include_Point]
  refine ⟨hbox, ?_⟩
  intro b hb
  rw [hbox] at hb
  simp only [Except.ok.injEq] at hb
  subst hb
  simp only [Box.contains, Vec3.add_def, Vec3.mul_def]
  refine ⟨?_, ?_, ?_, ?_, ?_⟩
  · simp [le_max_iff, min_le_iff]
  · simp [le_max_iff, min_le_iff]
  · simp [le_max_iff, min_le_iff]
  · intro a1 a2 a3 p1 p2 p3 hs
    refine ⟨?_, ?_, ?_, ?_, ?_, ?_⟩
    · exact convex_ge _ a1 a2 a3 _ _ _ (by simp [min_le_iff]) (by simp [min_le_iff])
        (by simp [min_le_iff]) p1 p2 p3 hs
    · exact convex_le _ a1 a2 a3 _ _ _ (by simp [le_max_iff]) (by simp [le_max_iff])
        (by simp [le_max_iff]) p1 p2 p3 hs
    · exact convex_ge _ a1 a2 a3 _ _ _ (by simp [min_le_iff]) (by simp [min_le_iff])
        (by simp [min_le_iff]) p1 p2 p3 hs
    · exact convex_le _ a1 a2 a3 _ _ _ (by simp [le_max_iff]) (by simp [le_max_iff])
        (by simp [le_max_iff]) p1 p2 p3 hs
    · exact convex_ge _ a1 a2 a3 _ _ _ (by simp [min_le_iff]) (by simp [min_le_iff])
        (by simp [min_le_iff]) p1 p2 p3 hs
    · exact convex_le _ a1 a2 a3 _ _ _ (by simp [le_max_iff]) (by simp [le_max_iff])
        (by simp [le_max_iff]) p1 p2 p3 hs
  · rintro lo hi ⟨a1, a2, a3, a4, a5, a6⟩ ⟨b1, b2, b3, b4, b5, b6⟩ ⟨c1, c2, c3, c4, c5, c6⟩ pt
      ⟨p1, p2, p3, p4, p5, p6⟩
    refine ⟨?_, ?_, ?_, ?_, ?_, ?_⟩
    · exact le_trans (le_min (le_min a1 b1) c1) p1
    · exact le_trans p2 (max_le (max_le a2 b2) c2)
    · exact le_trans (le_min (le_min a3 b3) c3) p3
    · exact le_trans p4 (max_le (max_le a4 b4) c4)
    · exact le_trans (le_min (le_min a5 b5) c5) p5
    · exact le_trans p6 (max_le (max_le a6 b6) c6)

/-- Witness for C14: the triangle (0,0,0), (1,0,0), (0,1,0) has the box from
(0,0,0) to (1,1,0). -/
theorem Bounding_Box_tight_witness :
    unit_triangle.Bounding_Box 0 = Except.ok (Box.corners ⟨0, 0, 0⟩ ⟨1, 1, 0⟩) := by
  have h := (Bounding_Box_tight unit_triangle 0 ⟨0, 0, 0⟩ ⟨1, 0, 0⟩ ⟨0, 1, 0⟩ rfl rfl rfl).1
  rw [h]
  norm_num

end LaterTheorems

section LoopTheorems

set_option linter.unusedSectionVars false

variable {K H : Type} [LinearOrderedField K]

theorem part_indices_nodup (n : Int) : (part_indices n).Nodup := by
  unfold part_indices
  refine List.Nodup.map ?_ (List.nodup_range _)
  intro a b hab
  exact Int.ofNat.inj hab

theorem pixel_indices_nodup (number_pixels : Int × Int) :
    (Render_World.pixel_indices number_pixels).Nodup := by
  unfold Render_World.pixel_indices
  rw [List.nodup_flatMap]
  constructor
  · intro j _
    refine List.Nodup.map ?_ (part_indices_nodup _)
    intro a b hab
    exact (Prod.mk.inj hab).1
  · refine List.Nodup.pairwise_of_forall_ne (part_indices_nodup _) ?_
    intro j1 _ j2 _ hne
    simp only [Function.onFun, List.disjoint_left, List.mem_map]
    rintro p ⟨i1, _, rfl⟩ ⟨i2, _, h⟩
    exact hne (Prod.mk.inj h).2.symm

theorem mem_pixel_indices (number_pixels : Int × Int) (p : Int × Int) :
    p ∈ Render_World.pixel_indices number_pixels ↔
      0 ≤ p.1 ∧ p.1 < number_pixels.1 ∧ 0 ≤ p.2 ∧ p.2 < number_pixels.2 := by
  obtain ⟨i, j⟩ := p
  simp only [Render_World.pixel_indices, List.mem_flatMap, List.mem_map, mem_part_indices,
    Prod.mk.injEq]
  constructor
  · rintro ⟨j1, ⟨hj0, hj1⟩, i1, ⟨hi0, hi1⟩, rfl, rfl⟩
    exact ⟨hi0, hi1, hj0, hj1⟩
  · rintro ⟨hi0, hi1, hj0, hj1⟩
    exact ⟨j, ⟨hj0, hj1⟩, i, ⟨hi0, hi1⟩, rfl, rfl⟩

/-- C15.  `Render` renders each pixel exactly once: the pixel indices of the
`Set_Pixel` calls it makes, one per `Render_Pixel`, are the indices (i, j) of
the two loops; no index occurs twice, every (i, j) with 0 <= i < cols and
0 <= j < rows occurs, no other index occurs, and with cols = 0 or rows = 0
nothing is rendered. -/
theorem Render_each_pixel_once (disable_hierarchy : Bool) (Reorder_Entries Build_Tree : H → H)
    (normalized : Vec3 K → Vec3 K) (Cell_Center : Camera K → Int × Int → Vec2 K)
    (Pixel_Color : Vec3 K → Nat) (w : Render_World K H) :
    (w.Render disable_hierarchy Reorder_Entries Build_Tree normalized Cell_Center
        Pixel_Color).map Prod.fst = Render_World.pixel_indices w.camera.number_pixels ∧
      ((w.Render disable_hierarchy Reorder_Entries Build_Tree normalized Cell_Center
        Pixel_Color).map Prod.fst).Nodup ∧
      (∀ i j : Int, 0 ≤ i → i < w.camera.number_pixels.1 → 0 ≤ j →
        j < w.camera.number_pixels.2 →
        (i, j) ∈ (w.Render disable_hierarchy Reorder_Entries Build_Tree normalized Cell_Center
          Pixel_Color).map Prod.fst) ∧
      (∀ p ∈ (w.Render disable_hierarchy Reorder_Entries Build_Tree normalized Cell_Center
          Pixel_Color).map Prod.fst,
        0 ≤ p.1 ∧ p.1 < w.camera.number_pixels.1 ∧ 0 ≤ p.2 ∧ p.2 < w.camera.number_pixels.2) ∧
      (w.camera.number_pixels.1 = 0 ∨ w.camera.number_pixels.2 = 0 →
        w.Render disable_hierarchy Reorder_Entries Build_Tree normalized Cell_Center
          Pixel_Color = []) := by
  have hcam : (w.Render_prepare disable_hierarchy Reorder_Entries Build_Tree).camera
      = w.camera := by
    unfold Render_World.Render_prepare Render_World.Initialize_Hierarchy
    split <;> rfl
  have hidx : (w.Render disable_hierarchy Reorder_Entries Build_Tree normalized Cell_Center
      Pixel_Color).map Prod.fst = Render_World.pixel_indices w.camera.number_pixels := by
    simp only [Render_World.Render, List.map_map, hcam]
    exact List.map_id'' (fun _ => rfl) _
  refine ⟨hidx, ?_, ?_, ?_, ?_⟩
  · rw [hidx]
    exact pixel_indices_nodup _
  · intro i j hi0 hi1 hj0 hj1
    rw [hidx]
    exact (mem_pixel_indices w.camera.number_pixels (i, j)).mpr ⟨hi0, hi1, hj0, hj1⟩
  · intro p hp
    rw [hidx] at hp
    exact (mem_pixel_indices _ _).mp hp
  · intro hz
    have hnil : Render_World.pixel_indices w.camera.number_pixels = [] := by
      apply List.eq_nil_iff_forall_not_mem.mpr
      intro p hp
      have := (mem_pixel_indices _ _).mp hp
      rcases hz with hz | hz <;> omega
    simp only [Render_World.Render, hcam, hnil, List.map_nil]

end LoopTheorems

/-! ## Theorems: the distance of a hit on the mesh -/

section MeshInvariantTheorems

variable {K : Type} [LinearOrderedField K]

/-- The plane of the spec keeps the invariant of `Hit`: a hit it reports has a
distance above `small_t`. -/
theorem Plane_Intersection_above_small_t (plane_id : Nat) (pl : Plane K) (ray : Ray K)
    (part : Int) (h : (Plane.Intersection plane_id pl ray part).object ≠ none) :
    small_t < (Plane.Intersection plane_id pl ray part).dist := by
  unfold Plane.Intersection at h ⊢
  by_cases hd : Vec3.dot ray.direction pl.normal = 0
  · simp [hd, NO_INTERSECTION] at h
  · by_cases ht : Vec3.dot (pl.x1 - ray.endpoint) pl.normal / Vec3.dot ray.direction pl.normal
        > small_t
    · simp only [hd, if_false, ht, if_true]
    · simp [hd, ht, NO_INTERSECTION] at h

/-- C17.  For a valid triangle index and a supporting plane that keeps the
invariant of `Hit` (a hit it reports has a distance above `eps`, the value of
`small_t`): `Intersect_Triangle` returns, and when it returns true the distance
it reports is above `eps`; `Mesh::Intersection` returns a hit, whose object is
non-null exactly when `Intersect_Triangle` returned true, and whose distance is
then above `eps`. -/
theorem Intersect_Triangle_dist_above_small_t (normalized : Vec3 K → Vec3 K)
    (plane_Intersection : Plane K → Ray K → Int → Hit K) (mesh : Mesh K) (ray : Ray K)
    (part : Int) (v0 v1 v2 : Vec3 K) (eps : K) (hpart : 0 ≤ part)
    (h0 : mesh.vertex part 0 = Except.ok v0) (h1 : mesh.vertex part 1 = Except.ok v1)
    (h2 : mesh.vertex part 2 = Except.ok v2)
    (hplane : ∀ (pl : Plane K) (r : Ray K) (p : Int),
      (plane_Intersection pl r p).object ≠ none → eps < (plane_Intersection pl r p).dist) :
    (∀ dist : K, ∃ b d, Mesh.Intersect_Triangle normalized plane_Intersection mesh ray part dist
        = Except.ok (b, d) ∧ (b = true → eps < d)) ∧
      ∃ hit, Mesh.Intersection normalized plane_Intersection mesh ray part = Except.ok hit ∧
        (hit.object ≠ none ↔ ∃ d, Mesh.Intersect_Triangle normalized plane_Intersection mesh ray
          part (-1) = Except.ok (true, d)) ∧
        (hit.object ≠ none → eps < hit.dist) := by
  have hrun : ∀ dist : K, ∃ b d, Mesh.Intersect_Triangle normalized plane_Intersection mesh ray
      part dist = Except.ok (b, d) ∧ (b = true → eps < d) := by
    intro dist
    rw [Intersect_Triangle_eq normalized plane_Intersection mesh ray part dist v0 v1 v2 hpart
      h0 h1 h2, Intersect_Triangle_test_eq]
    split_ifs with hc
    · exact ⟨true, _, rfl, fun _ => hplane _ _ _ hc.1⟩
    · exact ⟨false, dist, rfl, fun hb => absurd hb (by decide)⟩
  refine ⟨hrun, ?_⟩
  obtain ⟨b, d, hbd, hd⟩ := hrun (-1)
  cases b with
  | false =>
    refine ⟨NO_INTERSECTION, ?_, ?_, ?_⟩
    · simp only [Mesh.Intersection, hbd, Except.bind]
      rfl
    · simp [NO_INTERSECTION, hbd]
    · intro h
      simp [NO_INTERSECTION] at h
  | true =>
    refine ⟨⟨some mesh.id, d, part⟩, ?_, ?_, ?_⟩
    · simp only [Mesh.Intersection, hbd, Except.bind, if_true]
    · simp [hbd]
    · intro _
      exact hd rfl

/-- Witness for C17: the plane of the spec keeps the invariant, the ray from
(1/4, 1/4, 1) straight down is accepted by the triangle (0,0,0), (1,0,0),
(0,1,0), and the distance reported, 1, is above `small_t`. -/
theorem Intersect_Triangle_dist_above_small_t_witness :
    Mesh.Intersect_Triangle normalized_exact (Plane.Intersection 7) unit_triangle
        (down_ray (1 / 4) (1 / 4)) 0 (-1) = Except.ok (true, 1) ∧
      ∃ hit, Mesh.Intersection normalized_exact (Plane.Intersection 7) unit_triangle
          (down_ray (1 / 4) (1 / 4)) 0 = Except.ok hit ∧
        (hit.object ≠ none ↔ ∃ d, Mesh.Intersect_Triangle normalized_exact (Plane.Intersection 7)
          unit_triangle (down_ray (1 / 4) (1 / 4)) 0 (-1) = Except.ok (true, d)) ∧
        (hit.object ≠ none → small_t < hit.dist) :=
  ⟨by rw [unit_triangle_run]; norm_num [weight_tol, weight_tolerance],
    (Intersect_Triangle_dist_above_small_t normalized_exact (Plane.Intersection 7) unit_triangle
      (down_ray (1 / 4) (1 / 4)) 0 ⟨0, 0, 0⟩ ⟨1, 0, 0⟩ ⟨0, 1, 0⟩ small_t (le_refl 0) rfl rfl rfl
      (Plane_Intersection_above_small_t 7)).2⟩

end MeshInvariantTheorems

section MeshLaterTheorems

set_option linter.unusedSectionVars false

variable {K : Type} [LinearOrderedField K]

/-- The intersection point of line 100 enters the weights only through dot
products with vectors orthogonal to the ray direction: the weights are the same
for every value `dist` holds on entry. -/
theorem weights_dist_independent (ray : Ray K) (v0 v1 v2 : Vec3 K) (dist dist2 inv_denom : K) :
    Intersect_Triangle.weights ray v0 v1 v2 dist inv_denom =
      Intersect_Triangle.weights ray v0 v1 v2 dist2 inv_denom := by
  have h1 : ∀ d : K, Vec3.dot (Vec3.cross ray.direction (v1 - v0))
      ((ray.endpoint + ray.direction * d) - v0) =
      Vec3.dot (Vec3.cross ray.direction (v1 - v0)) (ray.endpoint - v0) := by
    intro d
    simp only [Vec3.dot, Vec3.cross, Vec3.sub_def, Vec3.add_def, Vec3.mul_def]
    ring
  have h2 : ∀ d : K, Vec3.dot (Vec3.cross (v2 - v0) ray.direction)
      ((ray.endpoint + ray.direction * d) - v0) =
      Vec3.dot (Vec3.cross (v2 - v0) ray.direction) (ray.endpoint - v0) := by
    intro d
    simp only [Vec3.dot, Vec3.cross, Vec3.sub_def, Vec3.add_def, Vec3.mul_def]
    ring
  simp only [Intersect_Triangle.weights, h1, h2]

theorem Intersect_Triangle_test_dist_independent (ray : Ray K) (v0 v1 v2 : Vec3 K) (ph : Hit K)
    (dist dist2 : K) (b : Bool) (d : K)
    (h : Intersect_Triangle.test ray v0 v1 v2 ph dist = Except.ok (b, d)) :
    ∃ d2 : K, Intersect_Triangle.test ray v0 v1 v2 ph dist2 = Except.ok (b, d2) ∧
      (b = true → d2 = d) := by
  rw [Intersect_Triangle_test_eq] at h ⊢
  rw [weights_dist_independent ray v0 v1 v2 dist dist2] at h
  split_ifs at h ⊢ with hc
  · simp only [Except.ok.injEq, Prod.mk.injEq] at h
    exact ⟨ph.dist, by rw [← h.1], fun _ => h.2⟩
  · simp only [Except.ok.injEq, Prod.mk.injEq] at h
    refine ⟨dist2, by rw [← h.1], ?_⟩
    intro hb
    rw [← h.1] at hb
    exact absurd hb (by simp)

/-- C18.  For every mesh, ray, triangle index and any two values `dist` may
hold on entry: the three weights are the same, a fault is the same, and if the
function returns a boolean with one entry value it returns the same boolean
with the other, and on acceptance the same output `dist`. -/
theorem Intersect_Triangle_dist_independent (normalized : Vec3 K → Vec3 K)
    (plane_Intersection : Plane K → Ray K → Int → Hit K) (mesh : Mesh K) (ray : Ray K)
    (tri : Int) (dist dist2 : K) :
    (∀ (v0 v1 v2 : Vec3 K) (inv_denom : K),
        Intersect_Triangle.weights ray v0 v1 v2 dist inv_denom =
          Intersect_Triangle.weights ray v0 v1 v2 dist2 inv_denom) ∧
      (∀ (b : Bool) (d : K),
        Mesh.Intersect_Triangle normalized plane_Intersection mesh ray tri dist
          = Except.ok (b, d) →
        ∃ d2 : K, Mesh.Intersect_Triangle normalized plane_Intersection mesh ray tri dist2
            = Except.ok (b, d2) ∧ (b = true → d2 = d)) ∧
      (∀ fault : Fault,
        Mesh.Intersect_Triangle normalized plane_Intersection mesh ray tri dist
          = Except.error fault →
        Mesh.Intersect_Triangle normalized plane_Intersection mesh ray tri dist2
          = Except.error fault) := by
  refine ⟨fun v0 v1 v2 inv_denom => weights_dist_independent ray v0 v1 v2 dist dist2 inv_denom,
    ?_, ?_⟩
  · intro b d h
    unfold Mesh.Intersect_Triangle at h ⊢
    by_cases htri : tri < 0
    · simp [htri] at h
    · simp only [htri, if_false] at h ⊢
      rcases h0 : mesh.vertex tri 0 with e0 | v0
      · simp [h0, Except.bind] at h
      rcases h1 : mesh.vertex tri 1 with e1 | v1
      · simp [h0, h1, Except.bind] at h
      rcases h2 : mesh.vertex tri 2 with e2 | v2
      · simp [h0, h1, h2, Except.bind] at h
      rcases hn : Mesh.Normal normalized mesh v0 tri with en | n
      · simp [h0, h1, h2, hn, Except.bind] at h
      simp only [h0, h1, h2, hn, Except.bind] at h ⊢
      exact Intersect_Triangle_test_dist_independent ray v0 v1 v2 _ dist dist2 b d h
  · intro fault h
    unfold Mesh.Intersect_Triangle at h ⊢
    by_cases htri : tri < 0
    · simpa [htri] using h
    · simp only [htri, if_false] at h ⊢
      rcases h0 : mesh.vertex tri 0 with e0 | v0
      · simpa [h0, Except.bind] using h
      rcases h1 : mesh.vertex tri 1 with e1 | v1
      · simpa [h0, h1, Except.bind] using h
      rcases h2 : mesh.vertex tri 2 with e2 | v2
      · simpa [h0, h1, h2, Except.bind] using h
      rcases hn : Mesh.Normal normalized mesh v0 tri with en | n
      · simpa [h0, h1, h2, hn, Except.bind] using h
      simp only [h0, h1, h2, hn, Except.bind] at h ⊢
      rw [Intersect_Triangle_test_eq] at h
      simp at h

end MeshLaterTheorems

section TieTheorems

set_option linter.unusedSectionVars false

variable {K : Type} [LinearOrderedField K]

/-- The loop invariant of the search with positions: from any starting state
`(m, h)`, either nothing was taken, or the hit kept sits at a place of the list
before which every collision above `T_MIN_LIMIT` is strictly farther and after
which none is nearer. -/
theorem visit_fold_first (L : List (Hit K)) (m : K) (h : Hit K) :
    (L.foldl Closest_Intersection.visit (m, h) = (m, h) ∧
        ∀ c ∈ L, ¬ (c.dist < m ∧ T_MIN_LIMIT < c.dist)) ∨
      (∃ pre post : List (Hit K),
        L = pre ++ (L.foldl Closest_Intersection.visit (m, h)).2 :: post ∧
        T_MIN_LIMIT < (L.foldl Closest_Intersection.visit (m, h)).2.dist ∧
        (L.foldl Closest_Intersection.visit (m, h)).2.dist < m ∧
        (∀ c ∈ pre, T_MIN_LIMIT < c.dist →
          (L.foldl Closest_Intersection.visit (m, h)).2.dist < c.dist) ∧
        (∀ c ∈ post, T_MIN_LIMIT < c.dist →
          (L.foldl Closest_Intersection.visit (m, h)).2.dist ≤ c.dist)) := by
  induction L generalizing m h with
  | nil => left; simp
  | cons c rest ih =>
    simp only [List.foldl_cons]
    by_cases hc : c.dist < m ∧ c.dist > T_MIN_LIMIT
    · have hv : Closest_Intersection.visit (m, h) c = (c.dist, c) := by
        simp only [Closest_Intersection.visit]
        rw [if_pos hc]
      rw [hv]
      right
      rcases ih c.dist c with ⟨he, hall⟩ | ⟨pre, post, hL, hT, hlt, hpre, hpost⟩
      · rw [he]
        refine ⟨[], rest, rfl, hc.2, hc.1, ?_, ?_⟩
        · intro c2 hc2
          simp at hc2
        · intro c2 hc2 hT2
          exact not_lt.mp (fun hlt2 => hall c2 hc2 ⟨hlt2, hT2⟩)
      · refine ⟨c :: pre, post, ?_, hT, lt_trans hlt hc.1, ?_, hpost⟩
        · rw [List.cons_append, ← hL]
        · intro c2 hc2 hT2
          rcases List.mem_cons.mp hc2 with rfl | hin
          · exact hlt
          · exact hpre c2 hin hT2
    · have hv : Closest_Intersection.visit (m, h) c = (m, h) := by
        simp only [Closest_Intersection.visit]
        rw [if_neg hc]
      rw [hv]
      rcases ih m h with ⟨he, hall⟩ | ⟨pre, post, hL, hT, hlt, hpre, hpost⟩
      · left
        refine ⟨he, ?_⟩
        intro c2 hc2
        rcases List.mem_cons.mp hc2 with rfl | hin
        · exact hc
        · exact hall c2 hin
      · right
        refine ⟨c :: pre, post, ?_, hT, hlt, ?_, hpost⟩
        · rw [List.cons_append, ← hL]
        · intro c2 hc2 hT2
          rcases List.mem_cons.mp hc2 with rfl | hin
          · have : ¬ c2.dist < m := fun hlt2 => hc ⟨hlt2, hT2⟩
            exact lt_of_lt_of_le hlt (not_lt.mp this)
          · exact hpre c2 hin hT2

/-- C19.  Tie-breaking is first-wins.  With the collisions listed in iteration
order (objects in list order, parts by increasing index), if some part is hit
at a distance above `T_MIN_LIMIT` and below the largest double, the returned
hit sits at a place of that list such that every collision before it with a
distance above `T_MIN_LIMIT` is strictly farther, and none after it is nearer:
among the collisions of least accepted distance it is the first. -/
theorem Closest_Intersection_first_wins (objects : List (Object K)) (ray : Ray K)
    (h : ∃ obj ∈ objects, ∃ p : Int, 0 ≤ p ∧ p < obj.number_parts ∧
      T_MIN_LIMIT < (obj.Intersection ray p).dist ∧ (obj.Intersection ray p).dist < DBL_MAX) :
    ∃ pre post : List (Hit K),
      collisions objects ray = pre ++ Closest_Intersection objects ray :: post ∧
      (∀ c ∈ pre, T_MIN_LIMIT < c.dist → (Closest_Intersection objects ray).dist < c.dist) ∧
      (∀ c ∈ post, T_MIN_LIMIT < c.dist → (Closest_Intersection objects ray).dist ≤ c.dist) := by
  rw [Closest_Intersection_eq]
  rcases visit_fold_first (collisions objects ray) DBL_MAX NO_INTERSECTION with
    ⟨_, hall⟩ | ⟨pre, post, hL, _, _, hpre, hpost⟩
  · exfalso
    obtain ⟨obj, ho, p, h0, hn, hT, hlt⟩ := h
    exact hall _ ((mem_collisions objects ray _).mpr ⟨obj, ho, p, h0, hn, rfl⟩) ⟨hlt, hT⟩
  · exact ⟨pre, post, hL, hpre, hpost⟩

/-- Witness for C19: two objects, both hit at distance 3; the hit returned is
the first object's. -/
theorem Closest_Intersection_first_wins_witness :
    (∃ pre post : List (Hit ℚ),
      collisions [constant_object 1 1 3, constant_object 2 1 3] scene_ray =
        pre ++ Closest_Intersection [constant_object 1 1 3, constant_object 2 1 3] scene_ray
          :: post ∧
      (∀ c ∈ pre, T_MIN_LIMIT < c.dist →
        (Closest_Intersection [constant_object 1 1 3, constant_object 2 1 3] scene_ray).dist
          < c.dist) ∧
      (∀ c ∈ post, T_MIN_LIMIT < c.dist →
        (Closest_Intersection [constant_object 1 1 3, constant_object 2 1 3] scene_ray).dist
          ≤ c.dist)) ∧
      Closest_Intersection [constant_object 1 1 3, constant_object 2 1 3] scene_ray
        = ⟨some 1, 3, 0⟩ := by
  refine ⟨Closest_Intersection_first_wins [constant_object 1 1 3, constant_object 2 1 3]
    scene_ray ⟨constant_object 1 1 3, by simp, 0, le_refl 0, by simp [constant_object],
      by norm_num [constant_object, T_MIN_LIMIT], by norm_num [constant_object, DBL_MAX]⟩, ?_⟩
  norm_num [Closest_Intersection, Closest_Intersection.scan_object, part_indices,
    Closest_Intersection.visit, constant_object, List.range_succ, T_MIN_LIMIT, DBL_MAX]

end TieTheorems

/-! ## Theorems: the camera -/

section CameraTheorems

set_option linter.unusedSectionVars false

variable {K H : Type} [LinearOrderedField K]

theorem Vec3.dot_self_eq_zero (v : Vec3 K) : Vec3.dot v v = 0 ↔ v = ⟨0, 0, 0⟩ := by
  obtain ⟨x, y, z⟩ := v
  simp only [Vec3.dot, Vec3.mk.injEq]
  constructor
  · intro h
    have hx := mul_self_nonneg x
    have hy := mul_self_nonneg y
    have hz := mul_self_nonneg z
    refine ⟨mul_self_eq_zero.mp ?_, mul_self_eq_zero.mp ?_, mul_self_eq_zero.mp ?_⟩ <;> linarith
  · rintro ⟨rfl, rfl, rfl⟩
    simp

theorem Vec3.dot_scale (u v : Vec3 K) (s t : K) :
    Vec3.dot (u * s) (v * t) = s * t * Vec3.dot u v := by
  simp only [Vec3.dot, Vec3.mul_def]
  ring

theorem Vec3.dot_scale_right (u v : Vec3 K) (t : K) :
    Vec3.dot u (v * t) = t * Vec3.dot u v := by
  simp only [Vec3.dot, Vec3.mul_def]
  ring

theorem Vec3.dot_comm (u v : Vec3 K) : Vec3.dot u v = Vec3.dot v u := by
  simp only [Vec3.dot]
  ring

theorem Vec3.dot_cross_left (u v : Vec3 K) : Vec3.dot u (Vec3.cross u v) = 0 := by
  simp only [Vec3.dot, Vec3.cross]
  ring

theorem Vec3.dot_cross_right (u v : Vec3 K) : Vec3.dot v (Vec3.cross u v) = 0 := by
  simp only [Vec3.dot, Vec3.cross]
  ring

theorem Vec3.cross_scale_left (u v : Vec3 K) (s : K) :
    Vec3.cross (u * s) v = Vec3.cross u v * s := by
  simp only [Vec3.cross, Vec3.mul_def, Vec3.mk.injEq]
  refine ⟨?_, ?_, ?_⟩ <;> ring

theorem Vec3.dot_cross_self (u v : Vec3 K) :
    Vec3.dot (Vec3.cross u v) (Vec3.cross u v) =
      Vec3.dot u u * Vec3.dot v v - Vec3.dot u v * Vec3.dot u v := by
  simp only [Vec3.dot, Vec3.cross]
  ring

theorem Vec3.scale_one (v : Vec3 K) : v * (1 : K) = v := by
  obtain ⟨x, y, z⟩ := v
  simp [Vec3.mul_def]

/-- A normalising `normalized` scales a nonzero vector by a positive factor to
squared length one. -/
theorem Normalizes.scale {normalized : Vec3 K → Vec3 K} (hN : Normalizes normalized)
    (v : Vec3 K) (hv : Vec3.dot v v ≠ 0) :
    ∃ k : K, 0 < k ∧ k * k * Vec3.dot v v = 1 ∧ normalized v = v * k := by
  obtain ⟨m, hm, hmm, hnv⟩ := hN v hv
  refine ⟨1 / m, by positivity, ?_, hnv⟩
  rw [← hmm]
  field_simp

theorem Normalizes.unit {normalized : Vec3 K → Vec3 K} (hN : Normalizes normalized)
    (v : Vec3 K) (hv : Vec3.dot v v ≠ 0) :
    Vec3.dot (normalized v) (normalized v) = 1 := by
  obtain ⟨k, _, hk, hnv⟩ := hN.scale v hv
  rw [hnv, Vec3.dot_scale, hk]

/-- A normalising `normalized` leaves a vector of squared length one alone. -/
theorem Normalizes.of_unit {normalized : Vec3 K → Vec3 K} (hN : Normalizes normalized)
    (v : Vec3 K) (hv : Vec3.dot v v = 1) : normalized v = v := by
  obtain ⟨k, hk0, hk, hnv⟩ := hN.scale v (by rw [hv]; exact one_ne_zero)
  rw [hv, mul_one] at hk
  have hk1 : k = 1 := by
    have h := mul_self_eq_one_iff.mp hk
    rcases h with h | h
    · exact h
    · linarith
  rw [hnv, hk1, Vec3.scale_one]

/-- The basis `Position_And_Aim_Camera` computes from a non-degenerate input,
for a normalising `normalized`. -/
theorem Position_And_Aim_Camera_basis {normalized : Vec3 K → Vec3 K}
    (hN : Normalizes normalized) (cam : Camera K) (position look_at pseudo_up : Vec3 K)
    (h1 : look_at ≠ position)
    (h2 : Vec3.cross (look_at - position) pseudo_up ≠ ⟨0, 0, 0⟩) :
    Vec3.dot (cam.Position_And_Aim_Camera normalized position look_at pseudo_up).look_vector
        (cam.Position_And_Aim_Camera normalized position look_at pseudo_up).look_vector = 1 ∧
      Vec3.dot (cam.Position_And_Aim_Camera normalized position look_at pseudo_up).horizontal_vector
        (cam.Position_And_Aim_Camera normalized position look_at pseudo_up).horizontal_vector
        = 1 ∧
      Vec3.dot (cam.Position_And_Aim_Camera normalized position look_at pseudo_up).horizontal_vector
        (cam.Position_And_Aim_Camera normalized position look_at pseudo_up).look_vector = 0 ∧
      (cam.Position_And_Aim_Camera normalized position look_at pseudo_up).vertical_vector =
        Vec3.cross
          (cam.Position_And_Aim_Camera normalized position look_at pseudo_up).horizontal_vector
          (cam.Position_And_Aim_Camera normalized position look_at pseudo_up).look_vector ∧
      ∃ k : K, 0 < k ∧
        (cam.Position_And_Aim_Camera normalized position look_at pseudo_up).look_vector
          = (look_at - position) * k := by
  have ha : Vec3.dot (look_at - position) (look_at - position) ≠ 0 := by
    intro h
    have h0 := (Vec3.dot_self_eq_zero _).mp h
    apply h1
    obtain ⟨lx, ly, lz⟩ := look_at
    obtain ⟨px, py, pz⟩ := position
    simp only [Vec3.sub_def, Vec3.mk.injEq] at h0 ⊢
    exact ⟨sub_eq_zero.mp h0.1, sub_eq_zero.mp h0.2.1, sub_eq_zero.mp h0.2.2⟩
  obtain ⟨k1, hk1, hk1u, hlook⟩ := hN.scale _ ha
  have hlu : Vec3.dot (normalized (look_at - position)) (normalized (look_at - position)) = 1 :=
    hN.unit _ ha
  have hb : Vec3.dot (Vec3.cross (normalized (look_at - position)) pseudo_up)
      (Vec3.cross (normalized (look_at - position)) pseudo_up) ≠ 0 := by
    rw [hlook, Vec3.cross_scale_left, Vec3.dot_scale]
    have hc : Vec3.dot (Vec3.cross (look_at - position) pseudo_up)
        (Vec3.cross (look_at - position) pseudo_up) ≠ 0 :=
      fun h => h2 ((Vec3.dot_self_eq_zero _).mp h)
    have hk : k1 ≠ 0 := ne_of_gt hk1
    exact mul_ne_zero (mul_ne_zero hk hk) hc
  obtain ⟨k2, _, _, hhor⟩ := hN.scale _ hb
  have hhu := hN.unit _ hb
  have hhl : Vec3.dot (normalized (Vec3.cross (normalized (look_at - position)) pseudo_up))
      (normalized (look_at - position)) = 0 := by
    rw [hhor, Vec3.dot_comm, Vec3.dot_scale_right, Vec3.dot_cross_left, mul_zero]
  have hcu : Vec3.dot
      (Vec3.cross (normalized (Vec3.cross (normalized (look_at - position)) pseudo_up))
        (normalized (look_at - position)))
      (Vec3.cross (normalized (Vec3.cross (normalized (look_at - position)) pseudo_up))
        (normalized (look_at - position))) = 1 := by
    rw [Vec3.dot_cross_self, hhu, hlu, hhl]
    ring
  have hver := hN.of_unit _ hcu
  simp only [Camera.Position_And_Aim_Camera]
  exact ⟨hlu, hhu, hhl, hver, k1, hk1, hlook⟩

/-- C12.  After `Position_And_Aim_Camera(position, look_at_point, pseudo_up)`
with look_at_point != position and pseudo_up not parallel to
look_at_point - position, for a normalising `normalized`: the look, horizontal
and vertical vectors have unit length and are pairwise orthogonal,
cross(horizontal, look) = vertical, and the look vector is a positive multiple
of look_at_point - position. -/
theorem Position_And_Aim_Camera_orthonormal {normalized : Vec3 K → Vec3 K}
    (hN : Normalizes normalized) (cam : Camera K) (position look_at pseudo_up : Vec3 K)
    (h1 : look_at ≠ position)
    (h2 : Vec3.cross (look_at - position) pseudo_up ≠ ⟨0, 0, 0⟩) :
    Vec3.dot (cam.Position_And_Aim_Camera normalized position look_at pseudo_up).look_vector
        (cam.Position_And_Aim_Camera normalized position look_at pseudo_up).look_vector = 1 ∧
      Vec3.dot (cam.Position_And_Aim_Camera normalized position look_at pseudo_up).horizontal_vector
        (cam.Position_And_Aim_Camera normalized position look_at pseudo_up).horizontal_vector
        = 1 ∧
      Vec3.dot (cam.Position_And_Aim_Camera normalized position look_at pseudo_up).vertical_vector
        (cam.Position_And_Aim_Camera normalized position look_at pseudo_up).vertical_vector
        = 1 ∧
      Vec3.dot (cam.Position_And_Aim_Camera normalized position look_at pseudo_up).look_vector
        (cam.Position_And_Aim_Camera normalized position look_at pseudo_up).horizontal_vector
        = 0 ∧
      Vec3.dot (cam.Position_And_Aim_Camera normalized position look_at pseudo_up).look_vector
        (cam.Position_And_Aim_Camera normalized position look_at pseudo_up).vertical_vector
        = 0 ∧
      Vec3.dot (cam.Position_And_Aim_Camera normalized position look_at pseudo_up).horizontal_vector
        (cam.Position_And_Aim_Camera normalized position look_at pseudo_up).vertical_vector
        = 0 ∧
      Vec3.cross
          (cam.Position_And_Aim_Camera normalized position look_at pseudo_up).horizontal_vector
          (cam.Position_And_Aim_Camera normalized position look_at pseudo_up).look_vector
        = (cam.Position_And_Aim_Camera normalized position look_at pseudo_up).vertical_vector ∧
      (∃ k : K, 0 < k ∧
        (cam.Position_And_Aim_Camera normalized position look_at pseudo_up).look_vector
          = (look_at - position) * k) ∧
      (cam.Position_And_Aim_Camera normalized position look_at pseudo_up).position
        = position := by
  obtain ⟨hl, hh, hhl, hv, hk⟩ :=
    Position_And_Aim_Camera_basis hN cam position look_at pseudo_up h1 h2
  refine ⟨hl, hh, ?_, ?_, ?_, ?_, hv.symm, hk, rfl⟩
  · rw [hv, Vec3.dot_cross_self, hh, hl, hhl]
    ring
  · rw [Vec3.dot_comm, hhl]
  · rw [hv, Vec3.dot_cross_right]
  · rw [hv, Vec3.dot_cross_left]

/-- Over the reals, dividing by the square root of the squared length is a
normalising `normalized`. -/
theorem real_normalizes : Normalizes (normalized_with Real.sqrt) := by
  intro v hv
  have hnn : 0 ≤ Vec3.dot v v := by
    simp only [Vec3.dot]
    nlinarith [mul_self_nonneg v.x, mul_self_nonneg v.y, mul_self_nonneg v.z]
  have hpos : 0 < Vec3.dot v v := lt_of_le_of_ne hnn (Ne.symm hv)
  exact ⟨Real.sqrt (Vec3.dot v v), Real.sqrt_pos.mpr hpos, Real.mul_self_sqrt hnn, rfl⟩

/-- Witness for C12: over the reals, the camera at (0,0,5) aimed at the origin
with pseudo-up (0,1,0). -/
theorem Position_And_Aim_Camera_orthonormal_witness :
    Vec3.dot ((Camera.new : Camera ℝ).Position_And_Aim_Camera (normalized_with Real.sqrt)
        ⟨0, 0, 5⟩ ⟨0, 0, 0⟩ ⟨0, 1, 0⟩).look_vector
      ((Camera.new : Camera ℝ).Position_And_Aim_Camera (normalized_with Real.sqrt)
        ⟨0, 0, 5⟩ ⟨0, 0, 0⟩ ⟨0, 1, 0⟩).look_vector = 1 ∧
    Vec3.dot ((Camera.new : Camera ℝ).Position_And_Aim_Camera (normalized_with Real.sqrt)
        ⟨0, 0, 5⟩ ⟨0, 0, 0⟩ ⟨0, 1, 0⟩).look_vector
      ((Camera.new : Camera ℝ).Position_And_Aim_Camera (normalized_with Real.sqrt)
        ⟨0, 0, 5⟩ ⟨0, 0, 0⟩ ⟨0, 1, 0⟩).horizontal_vector = 0 := by
  have h := Position_And_Aim_Camera_orthonormal real_normalizes (Camera.new : Camera ℝ)
    ⟨0, 0, 5⟩ ⟨0, 0, 0⟩ ⟨0, 1, 0⟩ (by simp [Vec3.mk.injEq])
    (by norm_num [Vec3.cross, Vec3.sub_def, Vec3.mk.injEq])
  exact ⟨h.1, h.2.2.2.1⟩

/-- C20.  With the basis set by `Position_And_Aim_Camera` on a non-degenerate
input (for a normalising `normalized`) and the film position by `Focus_Camera`
with focal distance `f`, whatever `Cell_Center` returns:
dot(World_Position(pixel) - film_position, look_vector) = 0 and
dot(World_Position(pixel) - position, look_vector) = f; so for f > 0 the
direction of the primary ray `Render_Pixel` builds is not the zero vector. -/
theorem World_Position_on_film_plane {normalized : Vec3 K → Vec3 K}
    (hN : Normalizes normalized) (cam : Camera K) (position look_at pseudo_up : Vec3 K)
    (h1 : look_at ≠ position)
    (h2 : Vec3.cross (look_at - position) pseudo_up ≠ ⟨0, 0, 0⟩)
    (tan : K → K) (f aspect fov : K) (number_pixels : Int × Int)
    (Cell_Center : Camera K → Int × Int → Vec2 K) (pixel_index : Int × Int) (c : Camera K)
    (hc : c = ((cam.Position_And_Aim_Camera normalized position look_at pseudo_up).Focus_Camera
      tan f aspect fov).Set_Resolution number_pixels) :
    Vec3.dot (c.World_Position Cell_Center pixel_index - c.film_position) c.look_vector = 0 ∧
      Vec3.dot (c.World_Position Cell_Center pixel_index - c.position) c.look_vector = f ∧
      (0 < f → ∀ w : Render_World K H, w.camera = c →
        (w.primary_ray normalized Cell_Center pixel_index).direction ≠ ⟨0, 0, 0⟩) := by
  obtain ⟨hl, _, hhl, hv, _⟩ :=
    Position_And_Aim_Camera_basis hN cam position look_at pseudo_up h1 h2
  have hlook : c.look_vector
      = (cam.Position_And_Aim_Camera normalized position look_at pseudo_up).look_vector := by
    rw [hc]; rfl
  have hhor : c.horizontal_vector
      = (cam.Position_And_Aim_Camera normalized position look_at pseudo_up).horizontal_vector := by
    rw [hc]; rfl
  have hver : c.vertical_vector
      = (cam.Position_And_Aim_Camera normalized position look_at pseudo_up).vertical_vector := by
    rw [hc]; rfl
  have hfilm : c.film_position = c.position + c.look_vector * f := by
    rw [hc]; rfl
  rw [← hlook] at hl hhl hv
  rw [← hhor] at hhl hv
  rw [← hver] at hv
  have hvl : Vec3.dot c.vertical_vector c.look_vector = 0 := by
    rw [hv, Vec3.dot_comm, Vec3.dot_cross_right]
  have hon : Vec3.dot (c.World_Position Cell_Center pixel_index - c.film_position)
      c.look_vector = 0 := by
    simp only [Camera.World_Position, Vec3.dot, Vec3.sub_def] at hhl hvl ⊢
    linear_combination (Cell_Center c pixel_index).x * hhl + (Cell_Center c pixel_index).y * hvl
  have hf : Vec3.dot (c.World_Position Cell_Center pixel_index - c.position)
      c.look_vector = f := by
    have hsplit : Vec3.dot (c.World_Position Cell_Center pixel_index - c.position)
        c.look_vector =
        Vec3.dot (c.World_Position Cell_Center pixel_index - c.film_position) c.look_vector
          + f * Vec3.dot c.look_vector c.look_vector := by
      rw [hfilm]
      simp only [Vec3.dot, Vec3.sub_def, Vec3.add_def, Vec3.mul_def]
      ring
    rw [hsplit, hon, hl]
    ring
  refine ⟨hon, hf, ?_⟩
  intro hfpos w hw hzero
  have hraw : (⟨(w.camera.World_Position Cell_Center pixel_index).x - w.camera.position.x,
      (w.camera.World_Position Cell_Center pixel_index).y - w.camera.position.y,
      (w.camera.World_Position Cell_Center pixel_index).z - w.camera.position.z⟩ : Vec3 K)
      = c.World_Position Cell_Center pixel_index - c.position := by
    rw [hw]; rfl
  simp only [Render_World.primary_ray, Ray.construct, hraw] at hzero
  have hne : Vec3.dot (c.World_Position Cell_Center pixel_index - c.position)
      (c.World_Position Cell_Center pixel_index - c.position) ≠ 0 := by
    intro h0
    rw [(Vec3.dot_self_eq_zero _).mp h0] at hf
    simp only [Vec3.dot, zero_mul, add_zero] at hf
    exact absurd hf (ne_of_lt hfpos)
  have hu1 := hN.unit _ hne
  have hu2 := hN.unit (normalized (c.World_Position Cell_Center pixel_index - c.position))
    (by rw [hu1]; exact one_ne_zero)
  rw [hzero] at hu2
  simp [Vec3.dot] at hu2

/-- Witness for C20: over the reals, the camera at (0,0,5) aimed at the origin
with pseudo-up (0,1,0) and focal distance 1, pixel (0,0), with the cell centre
as the spec describes it. -/
theorem World_Position_on_film_plane_witness :
    Vec3.dot ((scene_camera (normalized_with Real.sqrt) Real.tan (Real.pi / 2)
        (⟨0, 0, 0⟩ : Vec3 ℝ)).World_Position Camera.Cell_Center (0, 0)
      - (scene_camera (normalized_with Real.sqrt) Real.tan (Real.pi / 2)
        (⟨0, 0, 0⟩ : Vec3 ℝ)).position)
      (scene_camera (normalized_with Real.sqrt) Real.tan (Real.pi / 2)
        (⟨0, 0, 0⟩ : Vec3 ℝ)).look_vector = 1 :=
  (@World_Position_on_film_plane ℝ Unit _ (normalized_with Real.sqrt) real_normalizes
    (Camera.new : Camera ℝ)
    ⟨0, 0, 5⟩ ⟨0, 0, 0⟩ ⟨0, 1, 0⟩ (by simp [Vec3.mk.injEq])
    (by norm_num [Vec3.cross, Vec3.sub_def, Vec3.mk.injEq]) Real.tan 1 1 (Real.pi / 2) (2, 2)
    Camera.Cell_Center (0, 0) _ rfl).2.1

end CameraTheorems

/-! ## Theorems: the concrete scenario -/

section SceneTheorems

set_option linter.unusedSectionVars false

variable {K : Type} [LinearOrderedField K]

/-- A normalising `normalized` divides a vector of squared length `n * n`, with
`n` positive, by `n`. -/
theorem Normalizes.of_sq {normalized : Vec3 K → Vec3 K} (hN : Normalizes normalized)
    (v : Vec3 K) (n : K) (hn : 0 < n) (hv : Vec3.dot v v = n * n) :
    normalized v = v * (1 / n) := by
  have hne : Vec3.dot v v ≠ 0 := by
    rw [hv]
    exact mul_ne_zero (ne_of_gt hn) (ne_of_gt hn)
  obtain ⟨m, hm, hmm, hnv⟩ := hN v hne
  have hmn : m = n := by
    rw [hv] at hmm
    rcases mul_self_eq_mul_self_iff.mp hmm with h | h
    · exact h
    · linarith
  rw [hnv, hmn]

/-- The camera of the scenario once aimed at the origin. -/
theorem scene_camera_toward {normalized : Vec3 K → Vec3 K} (hN : Normalizes normalized)
    (tan : K → K) (fov : K) (htan : tan ((1 / 2) * fov) = 1) :
    scene_camera normalized tan fov ⟨0, 0, 0⟩ =
      ⟨⟨0, 0, 5⟩, ⟨0, 0, 4⟩, ⟨0, 0, -1⟩, ⟨0, 1, 0⟩, ⟨1, 0, 0⟩, ⟨-1, -1⟩, ⟨1, 1⟩, ⟨2, 2⟩,
        ⟨1, 1⟩, (2, 2), some 4⟩ := by
  have hl : normalized ((⟨0, 0, 0⟩ : Vec3 K) - ⟨0, 0, 5⟩) = ⟨0, 0, -1⟩ := by
    rw [hN.of_sq _ 5 (by norm_num) (by norm_num [Vec3.dot, Vec3.sub_def])]
    norm_num [Vec3.sub_def, Vec3.mul_def]
  have hcr : Vec3.cross (⟨0, 0, -1⟩ : Vec3 K) ⟨0, 1, 0⟩ = ⟨1, 0, 0⟩ := by
    norm_num [Vec3.cross]
  have hh : normalized (⟨1, 0, 0⟩ : Vec3 K) = ⟨1, 0, 0⟩ :=
    hN.of_unit _ (by norm_num [Vec3.dot])
  have hcv : Vec3.cross (⟨1, 0, 0⟩ : Vec3 K) ⟨0, 0, -1⟩ = ⟨0, 1, 0⟩ := by
    norm_num [Vec3.cross]
  have hv : normalized (⟨0, 1, 0⟩ : Vec3 K) = ⟨0, 1, 0⟩ :=
    hN.of_unit _ (by norm_num [Vec3.dot])
  simp only [scene_camera, Camera.Position_And_Aim_Camera, hl, hcr, hh, hcv, hv,
    Camera.Focus_Camera, Camera.Set_Resolution, htan, Camera.new]
  norm_num [Vec3.add_def, Vec3.mul_def]

/-- The camera of the scenario once aimed away, at (0,0,10). -/
theorem scene_camera_away {normalized : Vec3 K → Vec3 K} (hN : Normalizes normalized)
    (tan : K → K) (fov : K) (htan : tan ((1 / 2) * fov) = 1) :
    scene_camera normalized tan fov ⟨0, 0, 10⟩ =
      ⟨⟨0, 0, 5⟩, ⟨0, 0, 6⟩, ⟨0, 0, 1⟩, ⟨0, 1, 0⟩, ⟨-1, 0, 0⟩, ⟨-1, -1⟩, ⟨1, 1⟩, ⟨2, 2⟩,
        ⟨1, 1⟩, (2, 2), some 4⟩ := by
  have hl : normalized ((⟨0, 0, 10⟩ : Vec3 K) - ⟨0, 0, 5⟩) = ⟨0, 0, 1⟩ := by
    rw [hN.of_sq _ 5 (by norm_num) (by norm_num [Vec3.dot, Vec3.sub_def])]
    norm_num [Vec3.sub_def, Vec3.mul_def]
  have hcr : Vec3.cross (⟨0, 0, 1⟩ : Vec3 K) ⟨0, 1, 0⟩ = ⟨-1, 0, 0⟩ := by
    norm_num [Vec3.cross]
  have hh : normalized (⟨-1, 0, 0⟩ : Vec3 K) = ⟨-1, 0, 0⟩ :=
    hN.of_unit _ (by norm_num [Vec3.dot])
  have hcv : Vec3.cross (⟨-1, 0, 0⟩ : Vec3 K) ⟨0, 0, 1⟩ = ⟨0, 1, 0⟩ := by
    norm_num [Vec3.cross]
  have hv : normalized (⟨0, 1, 0⟩ : Vec3 K) = ⟨0, 1, 0⟩ :=
    hN.of_unit _ (by norm_num [Vec3.dot])
  simp only [scene_camera, Camera.Position_And_Aim_Camera, hl, hcr, hh, hcv, hv,
    Camera.Focus_Camera, Camera.Set_Resolution, htan, Camera.new]
  norm_num [Vec3.add_def, Vec3.mul_def]

/-- The primary ray of a pixel whose film point is `film`, seen from `position`:
its direction is a positive multiple of film - position, when that vector is
not zero. -/
theorem primary_ray_direction {H : Type} {normalized : Vec3 K → Vec3 K}
    (hN : Normalizes normalized) (Cell_Center : Camera K → Int × Int → Vec2 K)
    (w : Render_World K H) (pixel_index : Int × Int) (raw : Vec3 K)
    (hraw : w.camera.World_Position Cell_Center pixel_index - w.camera.position = raw)
    (hne : Vec3.dot raw raw ≠ 0) :
    ∃ k : K, 0 < k ∧
      w.primary_ray normalized Cell_Center pixel_index = ⟨w.camera.position, raw * k⟩ := by
  obtain ⟨k, hk, _, hnv⟩ := hN.scale raw hne
  refine ⟨k, hk, ?_⟩
  have hraw2 : (⟨(w.camera.World_Position Cell_Center pixel_index).x - w.camera.position.x,
      (w.camera.World_Position Cell_Center pixel_index).y - w.camera.position.y,
      (w.camera.World_Position Cell_Center pixel_index).z - w.camera.position.z⟩ : Vec3 K)
      = raw := hraw
  simp only [Render_World.primary_ray, Ray.construct, hraw2]
  rw [hN.of_unit _ (hN.unit raw hne), hnv]

/-- The weights `Intersect_Triangle` computes on the triangle of the scenario
for a ray from (0,0,5) with direction (a, b, c) * k. -/
theorem scene_triangle_weights (a b c k dist : K) (hk : k ≠ 0) (hc : c ≠ 0) :
    Intersect_Triangle.denom ⟨⟨0, 0, 5⟩, (⟨a, b, c⟩ : Vec3 K) * k⟩
        ⟨-1, -1, 0⟩ ⟨1, -1, 0⟩ ⟨0, 1, 0⟩ ≠ 0 ∧
      Intersect_Triangle.weights ⟨⟨0, 0, 5⟩, (⟨a, b, c⟩ : Vec3 K) * k⟩
        ⟨-1, -1, 0⟩ ⟨1, -1, 0⟩ ⟨0, 1, 0⟩ dist
        (1 / Intersect_Triangle.denom ⟨⟨0, 0, 5⟩, (⟨a, b, c⟩ : Vec3 K) * k⟩
          ⟨-1, -1, 0⟩ ⟨1, -1, 0⟩ ⟨0, 1, 0⟩)
        = ⟨1 / 4 + 5 / 4 * (b / c) + 5 / 2 * (a / c), 1 / 2 - 5 / 2 * (b / c),
            1 / 4 + 5 / 4 * (b / c) - 5 / 2 * (a / c)⟩ := by
  have hd : Intersect_Triangle.denom ⟨⟨0, 0, 5⟩, (⟨a, b, c⟩ : Vec3 K) * k⟩
      ⟨-1, -1, 0⟩ ⟨1, -1, 0⟩ ⟨0, 1, 0⟩ = 4 * c * k := by
    simp only [Intersect_Triangle.denom, Vec3.dot, Vec3.cross, Vec3.sub_def, Vec3.mul_def]
    ring
  refine ⟨by rw [hd]; exact mul_ne_zero (mul_ne_zero (by norm_num) hc) hk, ?_⟩
  rw [hd]
  simp only [Intersect_Triangle.weights, Vec3.dot, Vec3.cross, Vec3.sub_def, Vec3.add_def,
    Vec3.mul_def, Weights.mk.injEq]
  refine ⟨?_, ?_, ?_⟩ <;> field_simp <;> ring

/-- On the triangle of the scenario, a ray from (0,0,5) with direction
(a, b, c) * k whose weights fail the test of line 128 gets NO_INTERSECTION from
`Mesh::Intersection`, whatever the supporting plane answers. -/
theorem scene_triangle_miss (normalized : Vec3 K → Vec3 K)
    (plane_Intersection : Plane K → Ray K → Int → Hit K) (a b c k : K) (hk : k ≠ 0)
    (hc : c ≠ 0)
    (hmiss : ¬ (1 / 4 + 5 / 4 * (b / c) + 5 / 2 * (a / c) > weight_tol ∧
      1 / 2 - 5 / 2 * (b / c) > weight_tol ∧
      1 / 4 + 5 / 4 * (b / c) - 5 / 2 * (a / c) > -weight_tol)) :
    Mesh.Intersection normalized plane_Intersection scene_triangle
      ⟨⟨0, 0, 5⟩, (⟨a, b, c⟩ : Vec3 K) * k⟩ 0 = Except.ok NO_INTERSECTION := by
  have hrun : Mesh.Intersect_Triangle normalized plane_Intersection scene_triangle
      ⟨⟨0, 0, 5⟩, (⟨a, b, c⟩ : Vec3 K) * k⟩ 0 (-1) = Except.ok (false, -1) := by
    rw [Intersect_Triangle_eq normalized plane_Intersection scene_triangle _ 0 (-1)
      ⟨-1, -1, 0⟩ ⟨1, -1, 0⟩ ⟨0, 1, 0⟩ (le_refl 0) rfl rfl rfl, Intersect_Triangle_test_eq,
      (scene_triangle_weights a b c k (-1) hk hc).2]
    rw [if_neg]
    rintro ⟨_, _, h⟩
    exact hmiss h
  simp only [Mesh.Intersection, hrun, Except.bind]
  rfl

/-- A one-part mesh that gives no hit makes the search return NO_INTERSECTION. -/
theorem as_Object_miss (normalized : Vec3 K → Vec3 K)
    (plane_Intersection : Plane K → Ray K → Int → Hit K) (mesh : Mesh K) (ray : Ray K)
    (hparts : mesh.number_parts = 1)
    (hmiss : Mesh.Intersection normalized plane_Intersection mesh ray 0
      = Except.ok NO_INTERSECTION) :
    Closest_Intersection [mesh.as_Object normalized plane_Intersection] ray
      = NO_INTERSECTION := by
  simp only [Closest_Intersection, List.foldl_cons, List.foldl_nil,
    Closest_Intersection.scan_object, Mesh.as_Object, hparts, part_indices]
  have hr : List.range (1 : Int).toNat = [0] := by decide
  rw [hr]
  simp only [List.map_cons, List.map_nil, List.foldl_cons, List.foldl_nil]
  have h0 : Int.ofNat 0 = 0 := rfl
  rw [h0, hmiss]
  simp only [Closest_Intersection.visit, NO_INTERSECTION]
  rw [if_neg]
  rintro ⟨_, h⟩
  have : (0 : K) < T_MIN_LIMIT := by
    unfold T_MIN_LIMIT
    positivity
  exact absurd h (not_lt.mpr (le_of_lt this))

end SceneTheorems

section ScenarioClaims

set_option linter.unusedSectionVars false

variable {K : Type} [LinearOrderedField K]

/-- In the scenario with the camera aimed at the origin, the primary ray of
each of the four pixels gets no hit: the rays pass the plane of the triangle at
(+-2.5, +-2.5, 0), outside it. -/
theorem scene_miss_toward {normalized : Vec3 K → Vec3 K} (hN : Normalizes normalized)
    (plane_Intersection : Plane K → Ray K → Int → Hit K) (tan : K → K) (fov : K)
    (htan : tan ((1 / 2) * fov) = 1) (i j : Int) (hi : i = 0 ∨ i = 1) (hj : j = 0 ∨ j = 1) :
    (scene_world normalized plane_Intersection tan fov ⟨0, 0, 0⟩).Closest_Intersection
      ((scene_world normalized plane_Intersection tan fov ⟨0, 0, 0⟩).primary_ray normalized
        Camera.Cell_Center (i, j)) = NO_INTERSECTION := by
  have hcam : (scene_world normalized plane_Intersection tan fov ⟨0, 0, 0⟩).camera =
      ⟨⟨0, 0, 5⟩, ⟨0, 0, 4⟩, ⟨0, 0, -1⟩, ⟨0, 1, 0⟩, ⟨1, 0, 0⟩, ⟨-1, -1⟩, ⟨1, 1⟩, ⟨2, 2⟩,
        ⟨1, 1⟩, (2, 2), some 4⟩ := scene_camera_toward hN tan fov htan
  have hraw : (scene_world normalized plane_Intersection tan fov ⟨0, 0, 0⟩).camera.World_Position
      Camera.Cell_Center (i, j)
      - (scene_world normalized plane_Intersection tan fov ⟨0, 0, 0⟩).camera.position
      = ⟨(i : K) - 1 / 2, (j : K) - 1 / 2, -1⟩ := by
    rw [hcam]
    simp only [Camera.World_Position, Camera.Cell_Center, Vec3.sub_def, Vec3.mk.injEq]
    refine ⟨?_, ?_, ?_⟩ <;> ring
  have hne : Vec3.dot (⟨(i : K) - 1 / 2, (j : K) - 1 / 2, -1⟩ : Vec3 K)
      ⟨(i : K) - 1 / 2, (j : K) - 1 / 2, -1⟩ ≠ 0 := by
    simp only [Vec3.dot]
    nlinarith [mul_self_nonneg ((i : K) - 1 / 2), mul_self_nonneg ((j : K) - 1 / 2)]
  obtain ⟨k, hk, hray⟩ := primary_ray_direction hN Camera.Cell_Center
    (scene_world normalized plane_Intersection tan fov ⟨0, 0, 0⟩) (i, j) _ hraw hne
  rw [hray, hcam]
  refine as_Object_miss normalized plane_Intersection scene_triangle _ rfl
    (scene_triangle_miss normalized plane_Intersection _ _ _ k (ne_of_gt hk) (by norm_num) ?_)
  rcases hi with rfl | rfl <;> rcases hj with rfl | rfl <;>
    norm_num [weight_tol, weight_tolerance]

/-- In the scenario with the camera aimed away, at (0,0,10), the primary ray of
each of the four pixels gets no hit. -/
theorem scene_miss_away {normalized : Vec3 K → Vec3 K} (hN : Normalizes normalized)
    (plane_Intersection : Plane K → Ray K → Int → Hit K) (tan : K → K) (fov : K)
    (htan : tan ((1 / 2) * fov) = 1) (i j : Int) (hi : i = 0 ∨ i = 1) (hj : j = 0 ∨ j = 1) :
    (scene_world normalized plane_Intersection tan fov ⟨0, 0, 10⟩).Closest_Intersection
      ((scene_world normalized plane_Intersection tan fov ⟨0, 0, 10⟩).primary_ray normalized
        Camera.Cell_Center (i, j)) = NO_INTERSECTION := by
  have hcam : (scene_world normalized plane_Intersection tan fov ⟨0, 0, 10⟩).camera =
      ⟨⟨0, 0, 5⟩, ⟨0, 0, 6⟩, ⟨0, 0, 1⟩, ⟨0, 1, 0⟩, ⟨-1, 0, 0⟩, ⟨-1, -1⟩, ⟨1, 1⟩, ⟨2, 2⟩,
        ⟨1, 1⟩, (2, 2), some 4⟩ := scene_camera_away hN tan fov htan
  have hraw : (scene_world normalized plane_Intersection tan fov ⟨0, 0, 10⟩).camera.World_Position
      Camera.Cell_Center (i, j)
      - (scene_world normalized plane_Intersection tan fov ⟨0, 0, 10⟩).camera.position
      = ⟨1 / 2 - (i : K), (j : K) - 1 / 2, 1⟩ := by
    rw [hcam]
    simp only [Camera.World_Position, Camera.Cell_Center, Vec3.sub_def, Vec3.mk.injEq]
    refine ⟨?_, ?_, ?_⟩ <;> ring
  have hne : Vec3.dot (⟨1 / 2 - (i : K), (j : K) - 1 / 2, 1⟩ : Vec3 K)
      ⟨1 / 2 - (i : K), (j : K) - 1 / 2, 1⟩ ≠ 0 := by
    simp only [Vec3.dot]
    nlinarith [mul_self_nonneg (1 / 2 - (i : K)), mul_self_nonneg ((j : K) - 1 / 2)]
  obtain ⟨k, hk, hray⟩ := primary_ray_direction hN Camera.Cell_Center
    (scene_world normalized plane_Intersection tan fov ⟨0, 0, 10⟩) (i, j) _ hraw hne
  rw [hray, hcam]
  refine as_Object_miss normalized plane_Intersection scene_triangle _ rfl
    (scene_triangle_miss normalized plane_Intersection _ _ _ k (ne_of_gt hk) (by norm_num) ?_)
  rcases hi with rfl | rfl <;> rcases hj with rfl | rfl <;>
    norm_num [weight_tol, weight_tolerance]

theorem real_tan_half_right_angle : Real.tan ((1 / 2) * (Real.pi / 2)) = 1 := by
  rw [show (1 / 2 : ℝ) * (Real.pi / 2) = Real.pi / 4 by ring]
  exact Real.tan_pi_div_four

/-- C16 (amended).  In the scenario (camera at (0,0,5), pseudo-up (0,1,0), focal
distance 1, aspect ratio 1, a field of view whose half angle has tangent 1,
resolution 2x2, the triangle (-1,-1,0), (1,-1,0), (0,1,0)), for a normalising
`normalized`, the cell centres of the spec and any supporting-plane answer: with
the camera aimed at the origin the primary ray of every one of the four pixels
yields NO_INTERSECTION from `Closest_Intersection`, and so it does with the
camera aimed away, at (0,0,10). -/
theorem scene_no_pixel_hits {normalized : Vec3 K → Vec3 K} (hN : Normalizes normalized)
    (plane_Intersection : Plane K → Ray K → Int → Hit K) (tan : K → K) (fov : K)
    (htan : tan ((1 / 2) * fov) = 1) :
    (∀ i j : Int, (i = 0 ∨ i = 1) → (j = 0 ∨ j = 1) →
      (scene_world normalized plane_Intersection tan fov ⟨0, 0, 0⟩).Closest_Intersection
        ((scene_world normalized plane_Intersection tan fov ⟨0, 0, 0⟩).primary_ray normalized
          Camera.Cell_Center (i, j)) = NO_INTERSECTION) ∧
      (∀ i j : Int, (i = 0 ∨ i = 1) → (j = 0 ∨ j = 1) →
        (scene_world normalized plane_Intersection tan fov ⟨0, 0, 10⟩).Closest_Intersection
          ((scene_world normalized plane_Intersection tan fov ⟨0, 0, 10⟩).primary_ray normalized
            Camera.Cell_Center (i, j)) = NO_INTERSECTION) :=
  ⟨fun i j hi hj => scene_miss_toward hN plane_Intersection tan fov htan i j hi hj,
    fun i j hi hj => scene_miss_away hN plane_Intersection tan fov htan i j hi hj⟩

/-- Witness for C16: over the reals, with the square root and the tangent of
the reals, a field of view of pi/2 and the plane answering as the spec
describes it; pixel (1,1), camera aimed away. -/
theorem scene_no_pixel_hits_witness :
    (scene_world (normalized_with Real.sqrt) (Plane.Intersection 7) Real.tan (Real.pi / 2)
        ⟨0, 0, 10⟩).Closest_Intersection
      ((scene_world (normalized_with Real.sqrt) (Plane.Intersection 7) Real.tan (Real.pi / 2)
        ⟨0, 0, 10⟩).primary_ray (normalized_with Real.sqrt) Camera.Cell_Center (1, 1))
      = NO_INTERSECTION :=
  (scene_no_pixel_hits real_normalizes (Plane.Intersection 7) Real.tan (Real.pi / 2)
    real_tan_half_right_angle).2 1 1 (Or.inr rfl) (Or.inr rfl)

/-- C16 as stated fails.  Over the reals, with the camera aimed at the origin
and a field of view of pi/2, the primary ray of each of the four pixels of the
2x2 image yields the null hit, not a hit on part 0 of the mesh. -/
theorem scene_central_pixels_counterexample :
    ((scene_world (normalized_with Real.sqrt) (Plane.Intersection 7) Real.tan (Real.pi / 2)
        ⟨0, 0, 0⟩).Closest_Intersection
      ((scene_world (normalized_with Real.sqrt) (Plane.Intersection 7) Real.tan (Real.pi / 2)
        ⟨0, 0, 0⟩).primary_ray (normalized_with Real.sqrt) Camera.Cell_Center (0, 0))).object
      = none ∧
    ((scene_world (normalized_with Real.sqrt) (Plane.Intersection 7) Real.tan (Real.pi / 2)
        ⟨0, 0, 0⟩).Closest_Intersection
      ((scene_world (normalized_with Real.sqrt) (Plane.Intersection 7) Real.tan (Real.pi / 2)
        ⟨0, 0, 0⟩).primary_ray (normalized_with Real.sqrt) Camera.Cell_Center (1, 0))).object
      = none ∧
    ((scene_world (normalized_with Real.sqrt) (Plane.Intersection 7) Real.tan (Real.pi / 2)
        ⟨0, 0, 0⟩).Closest_Intersection
      ((scene_world (normalized_with Real.sqrt) (Plane.Intersection 7) Real.tan (Real.pi / 2)
        ⟨0, 0, 0⟩).primary_ray (normalized_with Real.sqrt) Camera.Cell_Center (0, 1))).object
      = none ∧
    ((scene_world (normalized_with Real.sqrt) (Plane.Intersection 7) Real.tan (Real.pi / 2)
        ⟨0, 0, 0⟩).Closest_Intersection
      ((scene_world (normalized_with Real.sqrt) (Plane.Intersection 7) Real.tan (Real.pi / 2)
        ⟨0, 0, 0⟩).primary_ray (normalized_with Real.sqrt) Camera.Cell_Center (1, 1))).object
      = none := by
  have h := fun i j hi hj => scene_miss_toward real_normalizes (Plane.Intersection 7) Real.tan
    (Real.pi / 2) real_tan_half_right_angle i j hi hj
  refine ⟨?_, ?_, ?_, ?_⟩
  · rw [h 0 0 (Or.inl rfl) (Or.inl rfl)]; rfl
  · rw [h 1 0 (Or.inr rfl) (Or.inl rfl)]; rfl
  · rw [h 0 1 (Or.inl rfl) (Or.inr rfl)]; rfl
  · rw [h 1 1 (Or.inr rfl) (Or.inr rfl)]; rfl

end ScenarioClaims

end RtGl
